import Mathlib

/-! Voter records: entity model, validation, the stores and the request layer.

A shallow embedding of the Go packages `voter-api/db`, `Voter-Container/db` and
`Voter-Container/api`. Both `db` packages declare the same `Voter` and
`VoterHistory` structs and the same methods on `Voter`; they differ in the text
of the error values and in the store behind `VoterList` (a Go map in
`voter-api`, a remote cache in `Voter-Container`).

Conventions of the embedding:
* Go `uint` ids are natural numbers (the code only compares them);
* a Go `error` result is `Option String`, `none` being `nil`;
* a Go `(T, error)` result is `Except String T`;
* a method that mutates its `*VoterList` receiver returns the new store next
  to its `error`;
* a `for ... range` loop is a structural recursion over the slice's elements;
* a vote history is the list of its elements, except in `VoterApiHeap`, which
  keeps slice headers and backing arrays to follow what two copies of one
  `Voter` share.
-/

deriving instance DecidableEq for Except

/-- One poll participation entry (`VoterHistory` in both packages); the
`time.Time` field is kept as an integer instant. -/
structure VoterHistory where
  PollId : Nat
  VoterId : Nat
  VoteDate : Int
  deriving DecidableEq, Repr

/-- A voter with its vote history (`Voter` in both packages). -/
structure Voter where
  VoterId : Nat
  Name : String
  Email : String
  VoteHistory : List VoterHistory
  deriving DecidableEq, Repr

/-- The loop shared by `UpdateVote` and `DeleteVote`:
`for i, vote := range v.VoteHistory { if vote.PollId == pollId { foundVote =
true; voteIndex = i; break } }`, started at index `i`. Returns
`(foundVote, voteIndex)`; both variables start at their zero values. -/
def findVoteIndex (pollId : Nat) : List VoterHistory → Nat → Bool × Nat
  | [], _ => (false, 0)
  | vote :: rest, i =>
    if vote.PollId = pollId then (true, i) else findVoteIndex pollId rest (i + 1)

/-- The slice expression `append(h[:voteIndex], h[voteIndex+1:]...)`, by value. -/
def removeAt (h : List VoterHistory) (voteIndex : Nat) : List VoterHistory :=
  h.take voteIndex ++ h.drop (voteIndex + 1)

namespace VoterApi

/-- The range loop of `GetVote`: return the first vote with the poll id. -/
def getVoteLoop (pollId : Nat) : List VoterHistory → Except String VoterHistory
  | [] => .error "Vote does not exist."
  | vote :: rest => if vote.PollId = pollId then .ok vote else getVoteLoop pollId rest

/-- Method `(v *Voter) GetVote(pollId uint) (VoterHistory, error)`. -/
def GetVote (v : Voter) (pollId : Nat) : Except String VoterHistory :=
  getVoteLoop pollId v.VoteHistory

/-- The range loop of `AddVote`: `some err` when the loop returns early. -/
def addVoteLoop (newVote : VoterHistory) : List VoterHistory → Option String
  | [] => none
  | vote :: rest =>
    if vote.PollId = newVote.PollId then some "Vote already exists."
    else addVoteLoop newVote rest

/-- Method `(v Voter) AddVote(newVote VoterHistory) (Voter, error)`. -/
def AddVote (v : Voter) (newVote : VoterHistory) : Except String Voter :=
  match addVoteLoop newVote v.VoteHistory with
  | some err => .error err
  | none => .ok { v with VoteHistory := v.VoteHistory ++ [newVote] }

/-- Method `(v Voter) UpdateVote(updatedVote VoterHistory) (Voter, error)`. -/
def UpdateVote (v : Voter) (updatedVote : VoterHistory) : Except String Voter :=
  match findVoteIndex updatedVote.PollId v.VoteHistory 0 with
  | (false, _) => .error "Vote does not exist."
  | (true, voteIndex) =>
    .ok { v with VoteHistory := v.VoteHistory.set voteIndex updatedVote }

/-- Method `(v Voter) DeleteVote(pollId uint) (Voter, error)`. -/
def DeleteVote (v : Voter) (pollId : Nat) : Except String Voter :=
  match findVoteIndex pollId v.VoteHistory 0 with
  | (false, _) => .error "Vote does not exist."
  | (true, voteIndex) => .ok { v with VoteHistory := removeAt v.VoteHistory voteIndex }

/-- The range loop of `ValidateVotes`; `seen` holds the keys of the `seen` map. -/
def validateLoop (voterId : Nat) : List Nat → List VoterHistory → Option String
  | _, [] => none
  | seen, vote :: rest =>
    if vote.PollId ∈ seen then some "Duplicate vote found"
    else if vote.VoterId ≠ voterId then some "Vote does not match voter"
    else validateLoop voterId (vote.PollId :: seen) rest

/-- Method `(v *Voter) ValidateVotes() error`. -/
def ValidateVotes (v : Voter) : Option String :=
  validateLoop v.VoterId [] v.VoteHistory

/-- The in-memory store: `voters map[uint]Voter`. -/
structure VoterList where
  voters : AList (fun _ : Nat => Voter)

/-- Constructor `NewVoterList`: an empty map. -/
def NewVoterList : VoterList := ⟨∅⟩

/-- Method `(v *VoterList) AddVoter(voter Voter) error`. -/
def AddVoter (v : VoterList) (voter : Voter) : VoterList × Option String :=
  match v.voters.lookup voter.VoterId with
  | some _ => (v, some "Voter already exists.")
  | none => (⟨v.voters.insert voter.VoterId voter⟩, none)

/-- Method `(v *VoterList) GetVoter(id uint) (Voter, error)`. -/
def GetVoter (v : VoterList) (id : Nat) : Except String Voter :=
  match v.voters.lookup id with
  | some voter => .ok voter
  | none => .error "No voter for id."

/-- Method `(v *VoterList) DeleteVoter(id uint) error`. -/
def DeleteVoter (v : VoterList) (id : Nat) : VoterList × Option String :=
  match v.voters.lookup id with
  | none => (v, some "No voter for id.")
  | some _ => (⟨v.voters.erase id⟩, none)

/-- Method `(v *VoterList) DeleteAll() error`. -/
def DeleteAll (_v : VoterList) : VoterList × Option String :=
  (⟨∅⟩, none)

/-- Method `(v *VoterList) UpdateVoter(voter Voter) error`. -/
def UpdateVoter (v : VoterList) (voter : Voter) : VoterList × Option String :=
  match v.voters.lookup voter.VoterId with
  | none => (v, some "Voter does not exist.")
  | some _ => (⟨v.voters.insert voter.VoterId voter⟩, none)

end VoterApi

namespace VoterContainer

/-- The range loop of `GetVote`: return the first vote with the poll id. -/
def getVoteLoop (pollId : Nat) : List VoterHistory → Except String VoterHistory
  | [] => .error "vote does not exist"
  | vote :: rest => if vote.PollId = pollId then .ok vote else getVoteLoop pollId rest

/-- Method `(v *Voter) GetVote(pollId uint) (VoterHistory, error)`. -/
def GetVote (v : Voter) (pollId : Nat) : Except String VoterHistory :=
  getVoteLoop pollId v.VoteHistory

/-- The range loop of `AddVote`: `some err` when the loop returns early. -/
def addVoteLoop (newVote : VoterHistory) : List VoterHistory → Option String
  | [] => none
  | vote :: rest =>
    if vote.PollId = newVote.PollId then some "vote already exists"
    else addVoteLoop newVote rest

/-- Method `(v Voter) AddVote(newVote VoterHistory) (Voter, error)`. -/
def AddVote (v : Voter) (newVote : VoterHistory) : Except String Voter :=
  match addVoteLoop newVote v.VoteHistory with
  | some err => .error err
  | none => .ok { v with VoteHistory := v.VoteHistory ++ [newVote] }

/-- Method `(v Voter) UpdateVote(updatedVote VoterHistory) (Voter, error)`. -/
def UpdateVote (v : Voter) (updatedVote : VoterHistory) : Except String Voter :=
  match findVoteIndex updatedVote.PollId v.VoteHistory 0 with
  | (false, _) => .error "vote does not exist"
  | (true, voteIndex) =>
    .ok { v with VoteHistory := v.VoteHistory.set voteIndex updatedVote }

/-- Method `(v Voter) DeleteVote(pollId uint) (Voter, error)`. -/
def DeleteVote (v : Voter) (pollId : Nat) : Except String Voter :=
  match findVoteIndex pollId v.VoteHistory 0 with
  | (false, _) => .error "vote does not exist"
  | (true, voteIndex) => .ok { v with VoteHistory := removeAt v.VoteHistory voteIndex }

/-- The range loop of `ValidateVotes`; `seen` holds the keys of the `seen` map. -/
def validateLoop (voterId : Nat) : List Nat → List VoterHistory → Option String
  | _, [] => none
  | seen, vote :: rest =>
    if vote.PollId ∈ seen then some "duplicate vote found"
    else if vote.VoterId ≠ voterId then some "vote does not match voter"
    else validateLoop voterId (vote.PollId :: seen) rest

/-- Method `(v *Voter) ValidateVotes() error`. -/
def ValidateVotes (v : Voter) : Option String :=
  validateLoop v.VoterId [] v.VoteHistory

end VoterContainer

/-! ## The store of `Voter-Container/db` and the request layer

`Voter-Container/db` keeps its voters in a remote cache, one JSON document per
key `voter:<id>`. The cache is embedded as a finite map from keys to the
documents it holds; a document is the `Voter` it encodes. Every command sent
to the cache may come back with an error: the cache does not answer, or, for
`JSON.SET`, the voter cannot be encoded. `CacheFaults` says which commands do
so while one request is served. A command that comes back with an error has
changed nothing. -/

namespace VoterContainer

/-- Constant `RedisKeyPrefix`. -/
def RedisKeyPrefix : String := "voter:"

/-- The cache behind `VoterList`: the documents stored under each key. -/
structure VoterList where
  docs : AList (fun _ : String => Voter)

/-- For each command of the cache client the package uses (`Exists`,
`JSONGet`, `JSONSet`, `Del`, `Keys`), the error it returns while one request
is served; `none` when the command goes through. -/
structure CacheFaults where
  existsErr : Option String
  jsonGetErr : Option String
  jsonSetErr : Option String
  delErr : Option String
  keysErr : Option String
  deriving DecidableEq, Repr

/-- Every command goes through. -/
def noFaults : CacheFaults := ⟨none, none, none, none, none⟩

/-- Constructor `NewWithCacheInstance` on a fresh cache: nothing stored. -/
def NewVoterList : VoterList := ⟨∅⟩

/-- Function `redisKeyFromId`: `fmt.Sprintf("%s%d", RedisKeyPrefix, id)`. -/
def redisKeyFromId (id : Nat) : String :=
  RedisKeyPrefix ++ toString id

/-- Method `getAllKeys`: `Keys` with the pattern `voter:*`. -/
def getAllKeys (f : CacheFaults) (v : VoterList) : Except String (List String) :=
  match f.keysErr with
  | some err => .error err
  | none => .ok (v.docs.keys.filter (fun key => RedisKeyPrefix.data.isPrefixOf key.data))

/-- Method `upsertVoter`: `JSONSet` of the voter under the key of its id; the
result is the error of `JSONSet`. -/
def upsertVoter (f : CacheFaults) (v : VoterList) (item : Voter) : VoterList × Option String :=
  match f.jsonSetErr with
  | some err => (v, some err)
  | none => (⟨v.docs.insert (redisKeyFromId item.VoterId) item⟩, none)

/-- Method `getItemFromRedis`: `JSONGet` of the key, then decoding. -/
def getItemFromRedis (f : CacheFaults) (v : VoterList) (key : String) : Except String Voter :=
  match f.jsonGetErr with
  | some err => .error err
  | none =>
    match v.docs.lookup key with
    | some item => .ok item
    | none => .error "redis: nil"

/-- Method `doesKeyExist`: `kc, _ := Exists(...)`, then `kc > 0`; the error of
`Exists` is dropped and leaves the count at zero. -/
def doesKeyExist (f : CacheFaults) (v : VoterList) (id : Nat) : Bool :=
  match f.existsErr with
  | some _ => false
  | none => (v.docs.lookup (redisKeyFromId id)).isSome

/-- Method `(v *VoterList) GetAllVoters() ([]Voter, error)`. -/
def GetAllVoters (f : CacheFaults) (v : VoterList) : Except String (List Voter) :=
  match getAllKeys f v with
  | .error err => .error err
  | .ok keyList => keyList.mapM (getItemFromRedis f v)

/-- Method `(v *VoterList) AddVoter(voter Voter) error`. -/
def AddVoter (f : CacheFaults) (v : VoterList) (voter : Voter) : VoterList × Option String :=
  if doesKeyExist f v voter.VoterId then
    (v, some ("Voter with id " ++ toString voter.VoterId ++ " already exists"))
  else upsertVoter f v voter

/-- Method `(v *VoterList) GetVoter(id uint) (Voter, error)`. -/
def GetVoter (f : CacheFaults) (v : VoterList) (id : Nat) : Except String Voter :=
  getItemFromRedis f v (redisKeyFromId id)

/-- Method `(v *VoterList) DeleteVoter(id uint) error`. -/
def DeleteVoter (f : CacheFaults) (v : VoterList) (id : Nat) : VoterList × Option String :=
  if !doesKeyExist f v id then (v, some "no voter for id")
  else
    match f.delErr with
    | some err => (v, some err)
    | none => (⟨v.docs.erase (redisKeyFromId id)⟩, none)

/-- Method `(v *VoterList) DeleteAll() error`: `Del` of every key found. -/
def DeleteAll (f : CacheFaults) (v : VoterList) : VoterList × Option String :=
  match getAllKeys f v with
  | .error err => (v, some err)
  | .ok keyList =>
    if keyList.length = 0 then (v, none)
    else
      match f.delErr with
      | some err => (v, some err)
      | none => (⟨keyList.foldl (fun docs key => docs.erase key) v.docs⟩, none)

/-- Method `(v *VoterList) UpdateVoter(voter Voter) error`. -/
def UpdateVoter (f : CacheFaults) (v : VoterList) (voter : Voter) : VoterList × Option String :=
  if !doesKeyExist f v voter.VoterId then (v, some "Voter does not exist")
  else upsertVoter f v voter

end VoterContainer

/-! The handlers of `Voter-Container/api`. A handler gets the store, the faults
of the cache while it runs, and what the parsers made of the request (`none`
when `ParamsParser` or `BodyParser` fails); it gives the store afterwards and
the HTTP status of the response: `fiber.NewError(code)` is `code`, a JSON or
text reply is 200. -/

namespace VoterContainerApi

/-- Method `withVoter`: parse the `id` parameter, fetch the voter, run `run`. -/
def withVoter (db : VoterContainer.VoterList) (f : VoterContainer.CacheFaults)
    (id : Option Nat) (run : Voter → VoterContainer.VoterList × Nat) :
    VoterContainer.VoterList × Nat :=
  match id with
  | none => (db, 400)
  | some id =>
    match VoterContainer.GetVoter f db id with
    | .error _ => (db, 404)
    | .ok voter => run voter

/-- Handler `ListAllVoters`. -/
def ListAllVoters (db : VoterContainer.VoterList) (f : VoterContainer.CacheFaults) :
    VoterContainer.VoterList × Nat :=
  match VoterContainer.GetAllVoters f db with
  | .error _ => (db, 404)
  | .ok _ => (db, 200)

/-- Handler `DeleteAllVoters`. -/
def DeleteAllVoters (db : VoterContainer.VoterList) (f : VoterContainer.CacheFaults) :
    VoterContainer.VoterList × Nat :=
  match VoterContainer.DeleteAll f db with
  | (db', some _) => (db', 404)
  | (db', none) => (db', 200)

/-- Handler `GetVoter`. -/
def GetVoter (db : VoterContainer.VoterList) (f : VoterContainer.CacheFaults)
    (id : Option Nat) : VoterContainer.VoterList × Nat :=
  withVoter db f id (fun _ => (db, 200))

/-- Handler `AddVoter`. -/
def AddVoter (db : VoterContainer.VoterList) (f : VoterContainer.CacheFaults)
    (body : Option Voter) : VoterContainer.VoterList × Nat :=
  match body with
  | none => (db, 400)
  | some voter =>
    match VoterContainer.ValidateVotes voter with
    | some _ => (db, 400)
    | none =>
      match VoterContainer.AddVoter f db voter with
      | (db', some _) => (db', 500)
      | (db', none) => (db', 200)

/-- Handler `UpdateVoter`. -/
def UpdateVoter (db : VoterContainer.VoterList) (f : VoterContainer.CacheFaults)
    (id : Option Nat) (body : Option Voter) : VoterContainer.VoterList × Nat :=
  match id with
  | none => (db, 400)
  | some id =>
    match body with
    | none => (db, 400)
    | some voter =>
      if voter.VoterId ≠ id then (db, 400)
      else
        match VoterContainer.ValidateVotes voter with
        | some _ => (db, 400)
        | none =>
          match VoterContainer.UpdateVoter f db voter with
          | (db', some _) => (db', 500)
          | (db', none) => (db', 200)

/-- Handler `DeleteVoter`. -/
def DeleteVoter (db : VoterContainer.VoterList) (f : VoterContainer.CacheFaults)
    (id : Option Nat) : VoterContainer.VoterList × Nat :=
  match id with
  | none => (db, 400)
  | some id =>
    match VoterContainer.DeleteVoter f db id with
    | (db', some _) => (db', 500)
    | (db', none) => (db', 200)

/-- Handler `GetAllVotes`. -/
def GetAllVotes (db : VoterContainer.VoterList) (f : VoterContainer.CacheFaults)
    (id : Option Nat) : VoterContainer.VoterList × Nat :=
  withVoter db f id (fun _ => (db, 200))

/-- Handler `AddVote`. -/
def AddVote (db : VoterContainer.VoterList) (f : VoterContainer.CacheFaults)
    (id : Option Nat) (body : Option VoterHistory) : VoterContainer.VoterList × Nat :=
  withVoter db f id (fun voter =>
    match body with
    | none => (db, 400)
    | some vote =>
      if voter.VoterId ≠ vote.VoterId then (db, 400)
      else
        match VoterContainer.AddVote voter vote with
        | .error _ => (db, 500)
        | .ok voter =>
          match VoterContainer.UpdateVoter f db voter with
          | (db', some _) => (db', 500)
          | (db', none) => (db', 200))

/-- Handler `GetVote`. -/
def GetVote (db : VoterContainer.VoterList) (f : VoterContainer.CacheFaults)
    (id pollid : Option Nat) : VoterContainer.VoterList × Nat :=
  withVoter db f id (fun voter =>
    match pollid with
    | none => (db, 400)
    | some pollid =>
      match VoterContainer.GetVote voter pollid with
      | .error _ => (db, 404)
      | .ok _ => (db, 200))

/-- Handler `UpdateVote`. -/
def UpdateVote (db : VoterContainer.VoterList) (f : VoterContainer.CacheFaults)
    (id pollid : Option Nat) (body : Option VoterHistory) : VoterContainer.VoterList × Nat :=
  withVoter db f id (fun voter =>
    match pollid with
    | none => (db, 400)
    | some pollid =>
      match body with
      | none => (db, 400)
      | some vote =>
        if vote.PollId ≠ pollid then (db, 400)
        else if voter.VoterId ≠ vote.VoterId then (db, 400)
        else
          match VoterContainer.UpdateVote voter vote with
          | .error _ => (db, 500)
          | .ok voter =>
            match VoterContainer.UpdateVoter f db voter with
            | (db', some _) => (db', 500)
            | (db', none) => (db', 200))

/-- Handler `DeleteVote`. -/
def DeleteVote (db : VoterContainer.VoterList) (f : VoterContainer.CacheFaults)
    (id pollid : Option Nat) : VoterContainer.VoterList × Nat :=
  withVoter db f id (fun voter =>
    match pollid with
    | none => (db, 400)
    | some pollid =>
      match VoterContainer.DeleteVote voter pollid with
      | .error _ => (db, 500)
      | .ok voter =>
        match VoterContainer.UpdateVoter f db voter with
        | (db', some _) => (db', 500)
        | (db', none) => (db', 200))

/-- A request to one of the routes of `main.go`, with its parsed parameters
and body. -/
inductive Request where
  | ListAllVoters
  | AddVoter (body : Option Voter)
  | UpdateVoter (id : Option Nat) (body : Option Voter)
  | DeleteAllVoters
  | DeleteVoter (id : Option Nat)
  | GetVoter (id : Option Nat)
  | GetAllVotes (id : Option Nat)
  | AddVote (id : Option Nat) (body : Option VoterHistory)
  | GetVote (id pollid : Option Nat)
  | UpdateVote (id pollid : Option Nat) (body : Option VoterHistory)
  | DeleteVote (id pollid : Option Nat)

/-- The route table of `main.go`: the handler serving a request. -/
def handle (db : VoterContainer.VoterList) (f : VoterContainer.CacheFaults) :
    Request → VoterContainer.VoterList × Nat
  | .ListAllVoters => ListAllVoters db f
  | .AddVoter body => AddVoter db f body
  | .UpdateVoter id body => UpdateVoter db f id body
  | .DeleteAllVoters => DeleteAllVoters db f
  | .DeleteVoter id => DeleteVoter db f id
  | .GetVoter id => GetVoter db f id
  | .GetAllVotes id => GetAllVotes db f id
  | .AddVote id body => AddVote db f id body
  | .GetVote id pollid => GetVote db f id pollid
  | .UpdateVote id pollid body => UpdateVote db f id pollid body
  | .DeleteVote id pollid => DeleteVote db f id pollid

/-- The store after serving the requests one after the other, each with the
faults of the cache while it is served. -/
def serve (db : VoterContainer.VoterList) :
    List (VoterContainer.CacheFaults × Request) → VoterContainer.VoterList
  | [] => db
  | call :: rest => serve (handle db call.1 call.2).1 rest

end VoterContainerApi

/-! ## `voter-api/db` with slices as Go holds them

A `[]VoterHistory` is a header (backing array, offset, length, capacity); a
`Voter` value copied out of the map carries the same header as the stored
one, so both read the same backing array. The heap is the list of the backing
arrays allocated so far. The capacity the runtime picks when `append` has to
allocate is the parameter `growCap`. -/

namespace VoterApiHeap

/-- A slice header of type `[]VoterHistory`. -/
structure Slice where
  array : Nat
  offset : Nat
  len : Nat
  cap : Nat
  deriving DecidableEq, Repr

/-- The struct `Voter` as it lies in memory. -/
structure Voter where
  VoterId : Nat
  Name : String
  Email : String
  VoteHistory : Slice
  deriving DecidableEq, Repr

/-- The backing arrays allocated so far, addressed by position. -/
abbrev Heap := List (List VoterHistory)

/-- The zero value of `VoterHistory`. -/
def zeroVote : VoterHistory := ⟨0, 0, 0⟩

/-- The elements `s[0], ..., s[len(s)-1]` of a slice. -/
def elems (h : Heap) (s : Slice) : List VoterHistory :=
  ((h.getD s.array []).drop s.offset).take s.len

/-- The slice expression `s[:i]`. -/
def sliceTo (s : Slice) (i : Nat) : Slice :=
  { s with len := i }

/-- The slice expression `s[i:]`. -/
def sliceFrom (s : Slice) (i : Nat) : Slice :=
  { s with offset := s.offset + i, len := s.len - i, cap := s.cap - i }

/-- The assignment `s[i] = x`. -/
def assign (h : Heap) (s : Slice) (i : Nat) (x : VoterHistory) : Heap :=
  h.set s.array ((h.getD s.array []).set (s.offset + i) x)

/-- Copy `xs` into the array `a` from position `pos` on. -/
def copyInto (h : Heap) (a : Nat) : Nat → List VoterHistory → Heap
  | _, [] => h
  | pos, x :: xs => copyInto (h.set a ((h.getD a []).set pos x)) a (pos + 1) xs

/-- The builtin `append(s, xs...)`: in place when the capacity allows, else
into a fresh array. -/
def append (growCap : Nat → Nat → Nat) (h : Heap) (s : Slice) (xs : List VoterHistory) :
    Heap × Slice :=
  if s.len + xs.length ≤ s.cap then
    (copyInto h s.array (s.offset + s.len) xs, { s with len := s.len + xs.length })
  else
    let newCap := max (s.len + xs.length) (growCap s.cap (s.len + xs.length))
    (h ++ [elems h s ++ xs ++ List.replicate (newCap - (s.len + xs.length)) zeroVote],
      { array := h.length, offset := 0, len := s.len + xs.length, cap := newCap })

/-- Method `(v Voter) AddVote(newVote VoterHistory) (Voter, error)`. -/
def AddVote (growCap : Nat → Nat → Nat) (h : Heap) (v : Voter) (newVote : VoterHistory) :
    Heap × Except String Voter :=
  match VoterApi.addVoteLoop newVote (elems h v.VoteHistory) with
  | some err => (h, .error err)
  | none =>
    let r := append growCap h v.VoteHistory [newVote]
    (r.1, .ok { v with VoteHistory := r.2 })

/-- Method `(v Voter) UpdateVote(updatedVote VoterHistory) (Voter, error)`. -/
def UpdateVote (h : Heap) (v : Voter) (updatedVote : VoterHistory) :
    Heap × Except String Voter :=
  match findVoteIndex updatedVote.PollId (elems h v.VoteHistory) 0 with
  | (false, _) => (h, .error "Vote does not exist.")
  | (true, voteIndex) => (assign h v.VoteHistory voteIndex updatedVote, .ok v)

/-- Method `(v Voter) DeleteVote(pollId uint) (Voter, error)`. -/
def DeleteVote (growCap : Nat → Nat → Nat) (h : Heap) (v : Voter) (pollId : Nat) :
    Heap × Except String Voter :=
  match findVoteIndex pollId (elems h v.VoteHistory) 0 with
  | (false, _) => (h, .error "Vote does not exist.")
  | (true, voteIndex) =>
    let r := append growCap h (sliceTo v.VoteHistory voteIndex)
      (elems h (sliceFrom v.VoteHistory (voteIndex + 1)))
    (r.1, .ok { v with VoteHistory := r.2 })

/-- The in-memory store: `voters map[uint]Voter`. -/
structure VoterList where
  voters : AList (fun _ : Nat => Voter)

/-- Method `(v *VoterList) GetVoter(id uint) (Voter, error)`. -/
def GetVoter (v : VoterList) (id : Nat) : Except String Voter :=
  match v.voters.lookup id with
  | some voter => .ok voter
  | none => .error "No voter for id."

/-- Method `(v *VoterList) UpdateVoter(voter Voter) error`. -/
def UpdateVoter (v : VoterList) (voter : Voter) : VoterList × Option String :=
  match v.voters.lookup voter.VoterId with
  | none => (v, some "Voter does not exist.")
  | some _ => (⟨v.voters.insert voter.VoterId voter⟩, none)

/-- The history a caller reads from the result of `GetVoter`. -/
def readHistory (h : Heap) (v : VoterList) (id : Nat) : Except String (List VoterHistory) :=
  match GetVoter v id with
  | .ok voter => .ok (elems h voter.VoteHistory)
  | .error err => .error err

end VoterApiHeap

/-- The voter value a caller reads: the struct with the elements of its
history in place of the slice header. -/
def viewVoter (h : VoterApiHeap.Heap) (v : VoterApiHeap.Voter) : Voter :=
  ⟨v.VoterId, v.Name, v.Email, VoterApiHeap.elems h v.VoteHistory⟩

/-- A slice header that lies within its backing array. -/
def VoterApiHeap.inBounds (h : VoterApiHeap.Heap) (s : VoterApiHeap.Slice) : Prop :=
  s.len ≤ s.cap ∧ s.offset + s.cap ≤ (h.getD s.array []).length

/-! ## Sample values -/

/-- A voter whose second vote repeats poll 0 and names another voter. -/
def duplicateThenMismatch : Voter :=
  ⟨4, "name1", "name1@place.com", [⟨0, 4, 0⟩, ⟨0, 1, 0⟩]⟩

/-- The cache refuses the write: `JSONSet` comes back with an error, every
other command goes through. -/
def writeFails : VoterContainer.CacheFaults :=
  ⟨none, none, some "dial tcp 0.0.0.0:6379: connect: connection refused", none, none⟩

/-- Requests in the manner of the test suite: two voters are created, voter 1
casts three votes, a repeated vote and a vote sent to the wrong voter are
turned down, a vote is lost because the cache refuses the write, one vote is
updated and one deleted. -/
def sampleRequests : List (VoterContainer.CacheFaults × VoterContainerApi.Request) :=
  [(VoterContainer.noFaults, .AddVoter (some ⟨0, "name1", "name1@place.com", []⟩)),
   (VoterContainer.noFaults, .AddVoter (some ⟨1, "name2", "name2@place.com", []⟩)),
   (VoterContainer.noFaults, .AddVote (some 1) (some ⟨0, 1, 5⟩)),
   (VoterContainer.noFaults, .AddVote (some 1) (some ⟨1, 1, 6⟩)),
   (VoterContainer.noFaults, .AddVote (some 1) (some ⟨2, 1, 7⟩)),
   (VoterContainer.noFaults, .AddVote (some 1) (some ⟨0, 1, 8⟩)),
   (VoterContainer.noFaults, .AddVote (some 0) (some ⟨0, 1, 5⟩)),
   (writeFails, .AddVote (some 1) (some ⟨4, 1, 11⟩)),
   (VoterContainer.noFaults, .UpdateVote (some 1) (some 1) (some ⟨1, 1, 9⟩)),
   (VoterContainer.noFaults, .DeleteVote (some 1) (some 2))]

/-- The store after `sampleRequests`, starting from the empty one. -/
def sampleStore : VoterContainer.VoterList :=
  VoterContainerApi.serve VoterContainer.NewVoterList sampleRequests

/-- A heap with one backing array: three votes of voter 1 and a spare slot. -/
def heapOfVoterOne : VoterApiHeap.Heap :=
  [[⟨0, 1, 5⟩, ⟨1, 1, 6⟩, ⟨2, 1, 7⟩, VoterApiHeap.zeroVote]]

/-- Voter 1 as stored: its history is the first three slots of the array. -/
def voterOneInMemory : VoterApiHeap.Voter :=
  ⟨1, "name2", "name2@place.com", ⟨0, 0, 3, 4⟩⟩

/-- The in-memory store holding voter 1. -/
def storeOfVoterOne : VoterApiHeap.VoterList :=
  ⟨(∅ : AList (fun _ : Nat => VoterApiHeap.Voter)).insert 1 voterOneInMemory⟩

/-- A store holding voters 0 and 1, filled through `AddVoter`. -/
def storeWithTwo : VoterApi.VoterList :=
  (VoterApi.AddVoter
    (VoterApi.AddVoter VoterApi.NewVoterList ⟨0, "name1", "name1@place.com", []⟩).1
    ⟨1, "name2", "name2@place.com", [⟨0, 1, 5⟩]⟩).1

/-! ## Loop lemmas for `ValidateVotes` -/

theorem validateLoop_api_eq_none_iff (voterId : Nat) (l : List VoterHistory)
    (seen : List Nat) :
    VoterApi.validateLoop voterId seen l = none ↔
      (∀ r ∈ l, r.PollId ∉ seen) ∧ l.Pairwise (fun a b => a.PollId ≠ b.PollId) ∧
        ∀ r ∈ l, r.VoterId = voterId := by
  induction l generalizing seen with
  | nil => simp [VoterApi.validateLoop]
  | cons vote rest ih =>
    unfold VoterApi.validateLoop
    by_cases h1 : vote.PollId ∈ seen
    · simp [h1]
    · by_cases h2 : vote.VoterId = voterId
      · simp only [h1, h2, if_false, ne_eq, not_true_eq_false, ih]
        constructor
        · rintro ⟨ha, hb, hc⟩
          refine ⟨?_, ?_, ?_⟩
          · intro r hr
            rcases List.mem_cons.1 hr with rfl | hr
            · exact h1
            · exact fun hm => ha r hr (List.mem_cons_of_mem _ hm)
          · refine List.pairwise_cons.2 ⟨?_, hb⟩
            intro r hr heq
            exact ha r hr (by simp [heq])
          · intro r hr
            rcases List.mem_cons.1 hr with rfl | hr
            · exact h2
            · exact hc r hr
        · rintro ⟨ha, hb, hc⟩
          have hb2 := List.pairwise_cons.1 hb
          refine ⟨?_, hb2.2, fun r hr => hc r (List.mem_cons_of_mem _ hr)⟩
          intro r hr hm
          rcases List.mem_cons.1 hm with heq | hm
          · exact hb2.1 r hr heq.symm
          · exact ha r (List.mem_cons_of_mem _ hr) hm
      · simp only [h1, h2, if_false, ne_eq, not_false_eq_true, if_true]
        constructor
        · intro h; cases h
        · rintro ⟨_, _, hc⟩
          exact absurd (hc vote (List.mem_cons_self _ _)) h2

theorem validateLoop_container_eq_none_iff (voterId : Nat) (l : List VoterHistory)
    (seen : List Nat) :
    VoterContainer.validateLoop voterId seen l = none ↔
      (∀ r ∈ l, r.PollId ∉ seen) ∧ l.Pairwise (fun a b => a.PollId ≠ b.PollId) ∧
        ∀ r ∈ l, r.VoterId = voterId := by
  induction l generalizing seen with
  | nil => simp [VoterContainer.validateLoop]
  | cons vote rest ih =>
    unfold VoterContainer.validateLoop
    by_cases h1 : vote.PollId ∈ seen
    · simp [h1]
    · by_cases h2 : vote.VoterId = voterId
      · simp only [h1, h2, if_false, ne_eq, not_true_eq_false, ih]
        constructor
        · rintro ⟨ha, hb, hc⟩
          refine ⟨?_, ?_, ?_⟩
          · intro r hr
            rcases List.mem_cons.1 hr with rfl | hr
            · exact h1
            · exact fun hm => ha r hr (List.mem_cons_of_mem _ hm)
          · refine List.pairwise_cons.2 ⟨?_, hb⟩
            intro r hr heq
            exact ha r hr (by simp [heq])
          · intro r hr
            rcases List.mem_cons.1 hr with rfl | hr
            · exact h2
            · exact hc r hr
        · rintro ⟨ha, hb, hc⟩
          have hb2 := List.pairwise_cons.1 hb
          refine ⟨?_, hb2.2, fun r hr => hc r (List.mem_cons_of_mem _ hr)⟩
          intro r hr hm
          rcases List.mem_cons.1 hm with heq | hm
          · exact hb2.1 r hr heq.symm
          · exact ha r (List.mem_cons_of_mem _ hr) hm
      · simp only [h1, h2, if_false, ne_eq, not_false_eq_true, if_true]
        constructor
        · intro h; cases h
        · rintro ⟨_, _, hc⟩
          exact absurd (hc vote (List.mem_cons_self _ _)) h2

/-- C1: `ValidateVotes` returns `nil` exactly when the poll ids of the history
are pairwise distinct and every record carries the voter's own id; this holds
for the method of `voter-api/db` and for the one of `Voter-Container/db`. -/
theorem ValidateVotes_eq_none_iff (v : Voter) :
    (VoterApi.ValidateVotes v = none ↔
      v.VoteHistory.Pairwise (fun a b => a.PollId ≠ b.PollId) ∧
        ∀ r ∈ v.VoteHistory, r.VoterId = v.VoterId) ∧
    (VoterContainer.ValidateVotes v = none ↔
      v.VoteHistory.Pairwise (fun a b => a.PollId ≠ b.PollId) ∧
        ∀ r ∈ v.VoteHistory, r.VoterId = v.VoterId) := by
  constructor
  · simp [VoterApi.ValidateVotes, validateLoop_api_eq_none_iff]
  · simp [VoterContainer.ValidateVotes, validateLoop_container_eq_none_iff]

/-- Every list holding an element that fails `p` splits at the first such
element. -/
theorem exists_first_failing {α : Type} (p : α → Prop) (l : List α)
    (h : ∃ x ∈ l, ¬ p x) :
    ∃ pre r post, l = pre ++ r :: post ∧ (∀ x ∈ pre, p x) ∧ ¬ p r := by
  classical
  induction l with
  | nil => simp at h
  | cons a rest ih =>
    by_cases ha : p a
    · obtain ⟨x, hx, hpx⟩ := h
      rcases List.mem_cons.1 hx with rfl | hx
      · exact absurd ha hpx
      · obtain ⟨pre, r, post, hsplit, hpre, hr⟩ := ih ⟨x, hx, hpx⟩
        refine ⟨a :: pre, r, post, by simp [hsplit], ?_, hr⟩
        intro y hy
        rcases List.mem_cons.1 hy with rfl | hy
        · exact ha
        · exact hpre y hy
    · exact ⟨[], a, rest, rfl, by simp, ha⟩

/-- The loop of `ValidateVotes` on a history whose first record of another
voter is `r`: the outcome is decided by the poll ids up to and including `r`. -/
theorem validateLoop_first_mismatch (voterId : Nat)
    (pre post : List VoterHistory) (r : VoterHistory) (seen : List Nat)
    (hpre : ∀ x ∈ pre, x.VoterId = voterId) (hr : r.VoterId ≠ voterId) :
    VoterApi.validateLoop voterId seen (pre ++ r :: post) =
      if (∀ x ∈ pre ++ [r], x.PollId ∉ seen) ∧
          (pre ++ [r]).Pairwise (fun a b => a.PollId ≠ b.PollId)
      then some "Vote does not match voter" else some "Duplicate vote found" := by
  induction pre generalizing seen with
  | nil =>
    by_cases h1 : r.PollId ∈ seen
    · simp [VoterApi.validateLoop, h1]
    · simp [VoterApi.validateLoop, h1, hr]
  | cons a pre ih =>
    have ha : a.VoterId = voterId := hpre a (List.mem_cons_self _ _)
    have hpre2 : ∀ x ∈ pre, x.VoterId = voterId :=
      fun x hx => hpre x (List.mem_cons_of_mem _ hx)
    by_cases h1 : a.PollId ∈ seen
    · have hneg : ¬ ((∀ x ∈ a :: pre ++ [r], x.PollId ∉ seen) ∧
          (a :: pre ++ [r]).Pairwise (fun a b => a.PollId ≠ b.PollId)) := by
        rintro ⟨hx, _⟩
        exact hx a (by simp) h1
      rw [if_neg hneg]
      simp [VoterApi.validateLoop, h1]
    · have hiff : ((∀ x ∈ a :: pre ++ [r], x.PollId ∉ seen) ∧
            (a :: pre ++ [r]).Pairwise (fun a b => a.PollId ≠ b.PollId)) ↔
          ((∀ x ∈ pre ++ [r], x.PollId ∉ a.PollId :: seen) ∧
            (pre ++ [r]).Pairwise (fun a b => a.PollId ≠ b.PollId)) := by
        constructor
        · rintro ⟨hx, hp⟩
          have hp2 := List.pairwise_cons.1 hp
          refine ⟨?_, hp2.2⟩
          intro x hxm hmem
          rcases List.mem_cons.1 hmem with heq | hmem
          · exact hp2.1 x hxm heq.symm
          · exact hx x (List.mem_cons_of_mem _ hxm) hmem
        · rintro ⟨hx, hp⟩
          refine ⟨?_, List.pairwise_cons.2 ⟨?_, hp⟩⟩
          · intro x hxm
            rcases List.mem_cons.1 hxm with rfl | hxm
            · exact h1
            · exact fun hm => hx x hxm (List.mem_cons_of_mem _ hm)
          · intro x hxm heq
            exact hx x hxm (by simp [heq])
      have hstep : VoterApi.validateLoop voterId seen (a :: pre ++ r :: post) =
          VoterApi.validateLoop voterId (a.PollId :: seen) (pre ++ r :: post) := by
        simp [VoterApi.validateLoop, h1, ha]
      rw [hstep, ih (a.PollId :: seen) hpre2]
      by_cases hc : (∀ x ∈ pre ++ [r], x.PollId ∉ a.PollId :: seen) ∧
          (pre ++ [r]).Pairwise (fun a b => a.PollId ≠ b.PollId)
      · rw [if_pos hc, if_pos (hiff.2 hc)]
      · rw [if_neg hc, if_neg (fun h => hc (hiff.1 h))]

/-- Appending a record whose poll id was already met makes the loop of
`ValidateVotes` stop with the duplicate error. -/
theorem validateLoop_append_seen (voterId : Nat) (l : List VoterHistory)
    (r : VoterHistory) (seen : List Nat)
    (h : VoterApi.validateLoop voterId seen l = none)
    (hr : r.PollId ∈ seen ∨ ∃ x ∈ l, x.PollId = r.PollId) :
    VoterApi.validateLoop voterId seen (l ++ [r]) = some "Duplicate vote found" := by
  induction l generalizing seen with
  | nil =>
    rcases hr with hr | ⟨x, hx, _⟩
    · simp [VoterApi.validateLoop, hr]
    · simp at hx
  | cons a l ih =>
    by_cases h1 : a.PollId ∈ seen
    · simp [VoterApi.validateLoop, h1] at h
    · by_cases h2 : a.VoterId = voterId
      · have hrest : VoterApi.validateLoop voterId (a.PollId :: seen) l = none := by
          simpa [VoterApi.validateLoop, h1, h2] using h
        have hr2 : r.PollId ∈ a.PollId :: seen ∨ ∃ x ∈ l, x.PollId = r.PollId := by
          rcases hr with hr | ⟨x, hx, hxe⟩
          · exact Or.inl (List.mem_cons_of_mem _ hr)
          · rcases List.mem_cons.1 hx with rfl | hx
            · exact Or.inl (by simp [hxe])
            · exact Or.inr ⟨x, hx, hxe⟩
        have := ih (a.PollId :: seen) hrest hr2
        simpa [VoterApi.validateLoop, h1, h2] using this
      · simp [VoterApi.validateLoop, h1, h2] at h

/-- C2, as the code has it: when the history holds a record of another voter,
`ValidateVotes` fails. With `r` the first such record, the error is "Vote does
not match voter" when the poll ids up to and including `r` are pairwise
distinct, and "Duplicate vote found" otherwise. -/
theorem ValidateVotes_of_mismatch (v : Voter)
    (h : ∃ x ∈ v.VoteHistory, x.VoterId ≠ v.VoterId) :
    ∃ pre r post, v.VoteHistory = pre ++ r :: post ∧
      (∀ x ∈ pre, x.VoterId = v.VoterId) ∧ r.VoterId ≠ v.VoterId ∧
      ((pre ++ [r]).Pairwise (fun a b => a.PollId ≠ b.PollId) →
        VoterApi.ValidateVotes v = some "Vote does not match voter") ∧
      (¬ (pre ++ [r]).Pairwise (fun a b => a.PollId ≠ b.PollId) →
        VoterApi.ValidateVotes v = some "Duplicate vote found") := by
  obtain ⟨pre, r, post, hsplit, hpre, hr⟩ :=
    exists_first_failing (fun x => x.VoterId = v.VoterId) v.VoteHistory h
  refine ⟨pre, r, post, hsplit, hpre, hr, ?_, ?_⟩
  · intro hp
    rw [VoterApi.ValidateVotes, hsplit,
      validateLoop_first_mismatch v.VoterId pre post r [] hpre hr]
    simp [hp]
  · intro hp
    rw [VoterApi.ValidateVotes, hsplit,
      validateLoop_first_mismatch v.VoterId pre post r [] hpre hr]
    simp [hp]

/-- C2, witness: voter 4 with the single vote `{poll 0, voter 1}` (the voter of
`Test_LoadVoterWithWrongVoterInPolls`). -/
theorem ValidateVotes_of_mismatch_witness :
    (∃ x ∈ (Voter.mk 4 "name1" "name1@place.com" [⟨0, 1, 0⟩]).VoteHistory, x.VoterId ≠ 4) ∧
    ∃ pre r post, (Voter.mk 4 "name1" "name1@place.com" [⟨0, 1, 0⟩]).VoteHistory
        = pre ++ r :: post ∧
      (∀ x ∈ pre, x.VoterId = 4) ∧ r.VoterId ≠ 4 ∧
      ((pre ++ [r]).Pairwise (fun a b => a.PollId ≠ b.PollId) →
        VoterApi.ValidateVotes (Voter.mk 4 "name1" "name1@place.com" [⟨0, 1, 0⟩])
          = some "Vote does not match voter") ∧
      (¬ (pre ++ [r]).Pairwise (fun a b => a.PollId ≠ b.PollId) →
        VoterApi.ValidateVotes (Voter.mk 4 "name1" "name1@place.com" [⟨0, 1, 0⟩])
          = some "Duplicate vote found") :=
  ⟨⟨⟨0, 1, 0⟩, by decide, by decide⟩,
    ValidateVotes_of_mismatch (Voter.mk 4 "name1" "name1@place.com" [⟨0, 1, 0⟩])
      ⟨⟨0, 1, 0⟩, by decide, by decide⟩⟩

/-- C2, counterexample: voter 4 with history `[{poll 0, voter 4}, {poll 0,
voter 1}]` holds a record of another voter, yet `ValidateVotes` reports the
duplicate poll and not the voter mismatch. -/
theorem ValidateVotes_mismatch_counterexample :
    (∃ x ∈ duplicateThenMismatch.VoteHistory, x.VoterId ≠ duplicateThenMismatch.VoterId) ∧
    VoterApi.ValidateVotes duplicateThenMismatch = some "Duplicate vote found" ∧
    VoterApi.ValidateVotes duplicateThenMismatch ≠ some "Vote does not match voter" := by
  refine ⟨⟨⟨0, 1, 0⟩, by decide, by decide⟩, by decide, by decide⟩

/-- C3: when a voter passes `ValidateVotes`, appending a record whose poll id
already occurs in the history makes `ValidateVotes` fail with "Duplicate vote
found", whatever voter id the appended record carries. -/
theorem ValidateVotes_append_duplicate (v : Voter) (r : VoterHistory)
    (hv : VoterApi.ValidateVotes v = none)
    (hr : ∃ x ∈ v.VoteHistory, x.PollId = r.PollId) :
    VoterApi.ValidateVotes { v with VoteHistory := v.VoteHistory ++ [r] }
      = some "Duplicate vote found" :=
  validateLoop_append_seen v.VoterId v.VoteHistory r [] hv (Or.inr hr)

/-- C3, witness: the history `[{poll 0}, {poll 1}]` of voter 4, then a third
record for poll 0 that names voter 9. -/
theorem ValidateVotes_append_duplicate_witness :
    VoterApi.ValidateVotes (Voter.mk 4 "name1" "name1@place.com" [⟨0, 4, 0⟩, ⟨1, 4, 0⟩]) = none ∧
    VoterApi.ValidateVotes
      (Voter.mk 4 "name1" "name1@place.com" ([⟨0, 4, 0⟩, ⟨1, 4, 0⟩] ++ [⟨0, 9, 7⟩]))
      = some "Duplicate vote found" :=
  ⟨by decide,
    ValidateVotes_append_duplicate (Voter.mk 4 "name1" "name1@place.com" [⟨0, 4, 0⟩, ⟨1, 4, 0⟩])
      ⟨0, 9, 7⟩ (by decide) ⟨⟨0, 4, 0⟩, by decide, by decide⟩⟩

/-! ## The in-memory store -/

/-- C4: when no voter with the id of `voter` is stored, `AddVoter` succeeds and
`GetVoter` on that id afterwards succeeds and returns `voter` itself (equal in
id, name, email and vote history). -/
theorem AddVoter_then_GetVoter (s : VoterApi.VoterList) (voter : Voter)
    (h : voter.VoterId ∉ s.voters) :
    (VoterApi.AddVoter s voter).2 = none ∧
      VoterApi.GetVoter (VoterApi.AddVoter s voter).1 voter.VoterId = .ok voter := by
  have hl : s.voters.lookup voter.VoterId = none := AList.lookup_eq_none.2 h
  simp [VoterApi.AddVoter, VoterApi.GetVoter, hl, AList.lookup_insert]

/-- C4, witness: voter 2 with one vote, added to a store holding voters 0 and 1. -/
theorem AddVoter_then_GetVoter_witness :
    2 ∉ storeWithTwo.voters ∧
    (VoterApi.AddVoter storeWithTwo ⟨2, "name3", "name3@place.com", [⟨7, 2, 3⟩]⟩).2 = none ∧
    VoterApi.GetVoter
      (VoterApi.AddVoter storeWithTwo ⟨2, "name3", "name3@place.com", [⟨7, 2, 3⟩]⟩).1 2
      = .ok ⟨2, "name3", "name3@place.com", [⟨7, 2, 3⟩]⟩ :=
  ⟨by decide,
    AddVoter_then_GetVoter storeWithTwo ⟨2, "name3", "name3@place.com", [⟨7, 2, 3⟩]⟩
      (by decide)⟩

/-- C5: `AddVoter` fails exactly when the store already holds a voter with that
id. When it fails the store is unchanged and `GetVoter` still returns the voter
stored before; after a successful `AddVoter`, every further `AddVoter` with the
same id fails. -/
theorem AddVoter_fails_iff (s : VoterApi.VoterList) (voter : Voter) :
    ((VoterApi.AddVoter s voter).2 ≠ none ↔ voter.VoterId ∈ s.voters) ∧
    ((VoterApi.AddVoter s voter).2 ≠ none →
      (VoterApi.AddVoter s voter).1 = s ∧
      ∃ old, VoterApi.GetVoter s voter.VoterId = .ok old ∧
        VoterApi.GetVoter (VoterApi.AddVoter s voter).1 voter.VoterId = .ok old) ∧
    ((VoterApi.AddVoter s voter).2 = none →
      ∀ again : Voter, again.VoterId = voter.VoterId →
        (VoterApi.AddVoter (VoterApi.AddVoter s voter).1 again).2 ≠ none) := by
  cases hl : s.voters.lookup voter.VoterId with
  | none =>
    have hmem : voter.VoterId ∉ s.voters := AList.lookup_eq_none.1 hl
    refine ⟨?_, ?_, ?_⟩
    · simp [VoterApi.AddVoter, hl, hmem]
    · simp [VoterApi.AddVoter, hl]
    · intro _ again hid
      have hfound : (VoterApi.AddVoter s voter).1.voters.lookup again.VoterId = some voter := by
        rw [hid]
        simp [VoterApi.AddVoter, hl, AList.lookup_insert]
      rw [VoterApi.AddVoter, hfound]
      simp
  | some old =>
    have hmem : voter.VoterId ∈ s.voters := by
      rw [← AList.lookup_isSome, hl]; rfl
    refine ⟨?_, ?_, ?_⟩
    · simp [VoterApi.AddVoter, hl, hmem]
    · intro _
      exact ⟨by simp [VoterApi.AddVoter, hl], old, by simp [VoterApi.AddVoter, VoterApi.GetVoter, hl]⟩
    · simp [VoterApi.AddVoter, hl]

/-- C5, witness: adding another voter 1 to a store holding voters 0 and 1 fails
and leaves the store as it was. -/
theorem AddVoter_fails_iff_witness :
    (VoterApi.AddVoter storeWithTwo ⟨1, "name3", "name3@place.com", []⟩).2 ≠ none ∧
    (VoterApi.AddVoter storeWithTwo ⟨1, "name3", "name3@place.com", []⟩).1 = storeWithTwo ∧
    ∃ old, VoterApi.GetVoter storeWithTwo 1 = .ok old ∧
      VoterApi.GetVoter
        (VoterApi.AddVoter storeWithTwo ⟨1, "name3", "name3@place.com", []⟩).1 1 = .ok old :=
  ⟨by decide,
    (AddVoter_fails_iff storeWithTwo ⟨1, "name3", "name3@place.com", []⟩).2.1 (by decide)⟩

/-- C6: `UpdateVoter` fails exactly when no voter with that id is stored, and
then the store is unchanged (no record is created). When it succeeds,
`GetVoter` on the id returns exactly the voter passed in. -/
theorem UpdateVoter_fails_iff (s : VoterApi.VoterList) (voter : Voter) :
    ((VoterApi.UpdateVoter s voter).2 ≠ none ↔ voter.VoterId ∉ s.voters) ∧
    ((VoterApi.UpdateVoter s voter).2 ≠ none →
      (VoterApi.UpdateVoter s voter).1 = s ∧
      voter.VoterId ∉ (VoterApi.UpdateVoter s voter).1.voters) ∧
    ((VoterApi.UpdateVoter s voter).2 = none →
      VoterApi.GetVoter (VoterApi.UpdateVoter s voter).1 voter.VoterId = .ok voter) := by
  cases hl : s.voters.lookup voter.VoterId with
  | none =>
    have hmem : voter.VoterId ∉ s.voters := AList.lookup_eq_none.1 hl
    refine ⟨?_, ?_, ?_⟩
    · simp [VoterApi.UpdateVoter, hl, hmem]
    · simp [VoterApi.UpdateVoter, hl, hmem]
    · simp [VoterApi.UpdateVoter, hl]
  | some old =>
    have hmem : voter.VoterId ∈ s.voters := by
      rw [← AList.lookup_isSome, hl]; rfl
    refine ⟨?_, ?_, ?_⟩
    · simp [VoterApi.UpdateVoter, hl, hmem]
    · simp [VoterApi.UpdateVoter, hl]
    · simp [VoterApi.UpdateVoter, VoterApi.GetVoter, hl, AList.lookup_insert]

/-- C6, witness: replacing voter 1 in a store holding voters 0 and 1 succeeds
and the new record is the one read back. -/
theorem UpdateVoter_fails_iff_witness :
    (VoterApi.UpdateVoter storeWithTwo ⟨1, "name3", "name3@place.com", []⟩).2 = none ∧
    VoterApi.GetVoter
      (VoterApi.UpdateVoter storeWithTwo ⟨1, "name3", "name3@place.com", []⟩).1 1
      = .ok ⟨1, "name3", "name3@place.com", []⟩ :=
  ⟨by decide,
    (UpdateVoter_fails_iff storeWithTwo ⟨1, "name3", "name3@place.com", []⟩).2.2 (by decide)⟩

/-- C7: `DeleteVoter` fails exactly when no voter with that id is stored; when
it succeeds, `GetVoter` on the id afterwards fails with "No voter for id.". -/
theorem DeleteVoter_fails_iff (s : VoterApi.VoterList) (id : Nat) :
    ((VoterApi.DeleteVoter s id).2 ≠ none ↔ id ∉ s.voters) ∧
    ((VoterApi.DeleteVoter s id).2 = none →
      VoterApi.GetVoter (VoterApi.DeleteVoter s id).1 id = .error "No voter for id.") := by
  cases hl : s.voters.lookup id with
  | none =>
    have hmem : id ∉ s.voters := AList.lookup_eq_none.1 hl
    simp [VoterApi.DeleteVoter, hl, hmem]
  | some old =>
    have hmem : id ∈ s.voters := by
      rw [← AList.lookup_isSome, hl]; rfl
    simp [VoterApi.DeleteVoter, VoterApi.GetVoter, hl, hmem, AList.lookup_erase]

/-- C7, witness: deleting voter 1 from a store holding voters 0 and 1 succeeds
and voter 1 can no longer be read. -/
theorem DeleteVoter_fails_iff_witness :
    (VoterApi.DeleteVoter storeWithTwo 1).2 = none ∧
    VoterApi.GetVoter (VoterApi.DeleteVoter storeWithTwo 1).1 1 = .error "No voter for id." :=
  ⟨by decide, (DeleteVoter_fails_iff storeWithTwo 1).2 (by decide)⟩

/-! ## Vote operations on a voter value -/

theorem addVoteLoop_api_eq_none_iff (r : VoterHistory) (l : List VoterHistory) :
    VoterApi.addVoteLoop r l = none ↔ ∀ x ∈ l, x.PollId ≠ r.PollId := by
  induction l with
  | nil => simp [VoterApi.addVoteLoop]
  | cons a l ih =>
    by_cases ha : a.PollId = r.PollId
    · simp [VoterApi.addVoteLoop, ha]
    · simp [VoterApi.addVoteLoop, ha, ih]

theorem addVoteLoop_container_eq_none_iff (r : VoterHistory) (l : List VoterHistory) :
    VoterContainer.addVoteLoop r l = none ↔ ∀ x ∈ l, x.PollId ≠ r.PollId := by
  induction l with
  | nil => simp [VoterContainer.addVoteLoop]
  | cons a l ih =>
    by_cases ha : a.PollId = r.PollId
    · simp [VoterContainer.addVoteLoop, ha]
    · simp [VoterContainer.addVoteLoop, ha, ih]

/-- C8: `AddVote` fails exactly when some record of the history has the poll id
of the new record; otherwise it returns a voter with the same id, name and
email whose history is the old history followed by the new record. This holds
for the method of `voter-api/db` and for the one of `Voter-Container/db`. -/
theorem AddVote_fails_iff (v : Voter) (r : VoterHistory) :
    (((∃ e, VoterApi.AddVote v r = .error e) ↔ ∃ x ∈ v.VoteHistory, x.PollId = r.PollId) ∧
      ((¬ ∃ x ∈ v.VoteHistory, x.PollId = r.PollId) →
        ∃ w, VoterApi.AddVote v r = .ok w ∧ w.VoterId = v.VoterId ∧ w.Name = v.Name ∧
          w.Email = v.Email ∧ w.VoteHistory = v.VoteHistory ++ [r])) ∧
    (((∃ e, VoterContainer.AddVote v r = .error e) ↔
        ∃ x ∈ v.VoteHistory, x.PollId = r.PollId) ∧
      ((¬ ∃ x ∈ v.VoteHistory, x.PollId = r.PollId) →
        ∃ w, VoterContainer.AddVote v r = .ok w ∧ w.VoterId = v.VoterId ∧ w.Name = v.Name ∧
          w.Email = v.Email ∧ w.VoteHistory = v.VoteHistory ++ [r])) := by
  constructor
  · cases hl : VoterApi.addVoteLoop r v.VoteHistory with
    | none =>
      have hall := (addVoteLoop_api_eq_none_iff r v.VoteHistory).1 hl
      have hno : ¬ ∃ x ∈ v.VoteHistory, x.PollId = r.PollId :=
        fun ⟨x, hx, hxe⟩ => hall x hx hxe
      refine ⟨?_, ?_⟩
      · simp only [VoterApi.AddVote, hl]
        exact ⟨fun ⟨e, he⟩ => (by cases he), fun h => absurd h hno⟩
      · intro _
        exact ⟨{ v with VoteHistory := v.VoteHistory ++ [r] },
          by simp only [VoterApi.AddVote, hl], rfl, rfl, rfl, rfl⟩
    | some err =>
      have hsome : ∃ x ∈ v.VoteHistory, x.PollId = r.PollId := by
        by_contra hcon
        have hnone := (addVoteLoop_api_eq_none_iff r v.VoteHistory).2
          (fun x hx hxe => hcon ⟨x, hx, hxe⟩)
        rw [hl] at hnone
        cases hnone
      refine ⟨?_, fun hno => absurd hsome hno⟩
      simp only [VoterApi.AddVote, hl]
      exact ⟨fun _ => hsome, fun _ => ⟨err, rfl⟩⟩
  · cases hl : VoterContainer.addVoteLoop r v.VoteHistory with
    | none =>
      have hall := (addVoteLoop_container_eq_none_iff r v.VoteHistory).1 hl
      have hno : ¬ ∃ x ∈ v.VoteHistory, x.PollId = r.PollId :=
        fun ⟨x, hx, hxe⟩ => hall x hx hxe
      refine ⟨?_, ?_⟩
      · simp only [VoterContainer.AddVote, hl]
        exact ⟨fun ⟨e, he⟩ => (by cases he), fun h => absurd h hno⟩
      · intro _
        exact ⟨{ v with VoteHistory := v.VoteHistory ++ [r] },
          by simp only [VoterContainer.AddVote, hl], rfl, rfl, rfl, rfl⟩
    | some err =>
      have hsome : ∃ x ∈ v.VoteHistory, x.PollId = r.PollId := by
        by_contra hcon
        have hnone := (addVoteLoop_container_eq_none_iff r v.VoteHistory).2
          (fun x hx hxe => hcon ⟨x, hx, hxe⟩)
        rw [hl] at hnone
        cases hnone
      refine ⟨?_, fun hno => absurd hsome hno⟩
      simp only [VoterContainer.AddVote, hl]
      exact ⟨fun _ => hsome, fun _ => ⟨err, rfl⟩⟩

/-- C8, witness: voter 1 holding a vote for poll 0 receives a vote for poll 3. -/
theorem AddVote_fails_iff_witness :
    (¬ ∃ x ∈ (Voter.mk 1 "name2" "name2@place.com" [⟨0, 1, 5⟩]).VoteHistory, x.PollId = 3) ∧
    ∃ w, VoterApi.AddVote (Voter.mk 1 "name2" "name2@place.com" [⟨0, 1, 5⟩]) ⟨3, 1, 8⟩ = .ok w ∧
      w.VoterId = 1 ∧ w.Name = "name2" ∧ w.Email = "name2@place.com" ∧
      w.VoteHistory = [⟨0, 1, 5⟩] ++ [⟨3, 1, 8⟩] :=
  ⟨by decide,
    (AddVote_fails_iff (Voter.mk 1 "name2" "name2@place.com" [⟨0, 1, 5⟩]) ⟨3, 1, 8⟩).1.2
      (by decide)⟩

theorem findVoteIndex_not_found (pollId : Nat) (l : List VoterHistory) (i : Nat)
    (h : ∀ x ∈ l, x.PollId ≠ pollId) : findVoteIndex pollId l i = (false, 0) := by
  induction l generalizing i with
  | nil => rfl
  | cons a l ih =>
    have ha : a.PollId ≠ pollId := h a (List.mem_cons_self _ _)
    simp only [findVoteIndex, ha, if_false]
    exact ih (i + 1) (fun x hx => h x (List.mem_cons_of_mem _ hx))

theorem findVoteIndex_found (pollId : Nat) (pre post : List VoterHistory)
    (r : VoterHistory) (i : Nat) (hpre : ∀ x ∈ pre, x.PollId ≠ pollId)
    (hr : r.PollId = pollId) :
    findVoteIndex pollId (pre ++ r :: post) i = (true, i + pre.length) := by
  induction pre generalizing i with
  | nil => simp [findVoteIndex, hr]
  | cons a pre ih =>
    have ha : a.PollId ≠ pollId := hpre a (List.mem_cons_self _ _)
    have hstep : findVoteIndex pollId (a :: pre ++ r :: post) i =
        findVoteIndex pollId (pre ++ r :: post) (i + 1) := by
      simp [findVoteIndex, ha]
    rw [hstep, ih (i + 1) (fun x hx => hpre x (List.mem_cons_of_mem _ hx))]
    simp only [List.length_cons]
    congr 1
    omega

/-- A history holding a record for the poll splits at the first such record. -/
theorem exists_first_poll (pollId : Nat) (l : List VoterHistory)
    (h : ∃ x ∈ l, x.PollId = pollId) :
    ∃ pre r post, l = pre ++ r :: post ∧ (∀ x ∈ pre, x.PollId ≠ pollId) ∧
      r.PollId = pollId := by
  obtain ⟨x, hx, hxe⟩ := h
  obtain ⟨pre, r, post, hsplit, hpre, hr⟩ :=
    exists_first_failing (fun y => y.PollId ≠ pollId) l ⟨x, hx, fun hne => hne hxe⟩
  exact ⟨pre, r, post, hsplit, hpre, not_not.1 hr⟩

theorem removeAt_split (pre post : List VoterHistory) (r : VoterHistory) :
    removeAt (pre ++ r :: post) pre.length = pre ++ post := by
  simp [removeAt]

theorem set_split (pre post : List VoterHistory) (old r : VoterHistory) :
    (pre ++ old :: post).set pre.length r = pre ++ r :: post := by
  simp

/-- C9: `DeleteVote` fails exactly when no record of the history has the poll
id. Otherwise it returns a voter whose history is the old one without the
first record for that poll: one element shorter, every other record kept in
its relative order. This holds for both packages. -/
theorem DeleteVote_fails_iff (v : Voter) (pollId : Nat) :
    (((∃ e, VoterApi.DeleteVote v pollId = .error e) ↔
        ∀ x ∈ v.VoteHistory, x.PollId ≠ pollId) ∧
      ((∃ x ∈ v.VoteHistory, x.PollId = pollId) →
        ∃ w pre r post, VoterApi.DeleteVote v pollId = .ok w ∧
          v.VoteHistory = pre ++ r :: post ∧ (∀ x ∈ pre, x.PollId ≠ pollId) ∧
          r.PollId = pollId ∧ w.VoteHistory = pre ++ post ∧
          w.VoteHistory.length + 1 = v.VoteHistory.length)) ∧
    (((∃ e, VoterContainer.DeleteVote v pollId = .error e) ↔
        ∀ x ∈ v.VoteHistory, x.PollId ≠ pollId) ∧
      ((∃ x ∈ v.VoteHistory, x.PollId = pollId) →
        ∃ w pre r post, VoterContainer.DeleteVote v pollId = .ok w ∧
          v.VoteHistory = pre ++ r :: post ∧ (∀ x ∈ pre, x.PollId ≠ pollId) ∧
          r.PollId = pollId ∧ w.VoteHistory = pre ++ post ∧
          w.VoteHistory.length + 1 = v.VoteHistory.length)) := by
  by_cases hex : ∃ x ∈ v.VoteHistory, x.PollId = pollId
  · obtain ⟨pre, r, post, hsplit, hpre, hr⟩ := exists_first_poll pollId v.VoteHistory hex
    have hfind : findVoteIndex pollId v.VoteHistory 0 = (true, pre.length) := by
      rw [hsplit, findVoteIndex_found pollId pre post r 0 hpre hr, Nat.zero_add]
    have hnall : ¬ ∀ x ∈ v.VoteHistory, x.PollId ≠ pollId := by
      obtain ⟨x, hx, hxe⟩ := hex
      exact fun hall => hall x hx hxe
    have hrem : removeAt v.VoteHistory pre.length = pre ++ post := by
      rw [hsplit, removeAt_split]
    have hlen : (pre ++ post).length + 1 = v.VoteHistory.length := by
      rw [hsplit]; simp; omega
    refine ⟨⟨?_, ?_⟩, ⟨?_, ?_⟩⟩
    · simp only [VoterApi.DeleteVote, hfind]
      exact ⟨fun ⟨e, he⟩ => (by cases he), fun hall => absurd hall hnall⟩
    · intro _
      exact ⟨{ v with VoteHistory := removeAt v.VoteHistory pre.length }, pre, r, post,
        by simp only [VoterApi.DeleteVote, hfind], hsplit, hpre, hr, hrem, by rw [hrem]; exact hlen⟩
    · simp only [VoterContainer.DeleteVote, hfind]
      exact ⟨fun ⟨e, he⟩ => (by cases he), fun hall => absurd hall hnall⟩
    · intro _
      exact ⟨{ v with VoteHistory := removeAt v.VoteHistory pre.length }, pre, r, post,
        by simp only [VoterContainer.DeleteVote, hfind], hsplit, hpre, hr, hrem,
        by rw [hrem]; exact hlen⟩
  · have hall : ∀ x ∈ v.VoteHistory, x.PollId ≠ pollId :=
      fun x hx hxe => hex ⟨x, hx, hxe⟩
    have hfind := findVoteIndex_not_found pollId v.VoteHistory 0 hall
    refine ⟨⟨?_, fun h => absurd h hex⟩, ⟨?_, fun h => absurd h hex⟩⟩
    · simp only [VoterApi.DeleteVote, hfind]
      exact ⟨fun _ => hall, fun _ => ⟨_, rfl⟩⟩
    · simp only [VoterContainer.DeleteVote, hfind]
      exact ⟨fun _ => hall, fun _ => ⟨_, rfl⟩⟩

/-- C9, witness: deleting poll 1 from the history `[0, 1, 2, 1]` (poll ids) of
voter 1 removes the first of the two records for poll 1. -/
theorem DeleteVote_fails_iff_witness :
    (∃ x ∈ (Voter.mk 1 "name2" "name2@place.com"
        [⟨0, 1, 5⟩, ⟨1, 1, 6⟩, ⟨2, 1, 7⟩, ⟨1, 1, 8⟩]).VoteHistory, x.PollId = 1) ∧
    ∃ w pre r post,
      VoterApi.DeleteVote (Voter.mk 1 "name2" "name2@place.com"
        [⟨0, 1, 5⟩, ⟨1, 1, 6⟩, ⟨2, 1, 7⟩, ⟨1, 1, 8⟩]) 1 = .ok w ∧
      (Voter.mk 1 "name2" "name2@place.com"
        [⟨0, 1, 5⟩, ⟨1, 1, 6⟩, ⟨2, 1, 7⟩, ⟨1, 1, 8⟩]).VoteHistory = pre ++ r :: post ∧
      (∀ x ∈ pre, x.PollId ≠ 1) ∧ r.PollId = 1 ∧ w.VoteHistory = pre ++ post ∧
      w.VoteHistory.length + 1 = (Voter.mk 1 "name2" "name2@place.com"
        [⟨0, 1, 5⟩, ⟨1, 1, 6⟩, ⟨2, 1, 7⟩, ⟨1, 1, 8⟩]).VoteHistory.length :=
  ⟨⟨⟨1, 1, 6⟩, by decide, by decide⟩,
    (DeleteVote_fails_iff (Voter.mk 1 "name2" "name2@place.com"
        [⟨0, 1, 5⟩, ⟨1, 1, 6⟩, ⟨2, 1, 7⟩, ⟨1, 1, 8⟩]) 1).1.2
      ⟨⟨1, 1, 6⟩, by decide, by decide⟩⟩

theorem getVoteLoop_api_found (pollId : Nat) (pre post : List VoterHistory)
    (r : VoterHistory) (hpre : ∀ x ∈ pre, x.PollId ≠ pollId) (hr : r.PollId = pollId) :
    VoterApi.getVoteLoop pollId (pre ++ r :: post) = .ok r := by
  induction pre with
  | nil => simp [VoterApi.getVoteLoop, hr]
  | cons a pre ih =>
    have ha : a.PollId ≠ pollId := hpre a (List.mem_cons_self _ _)
    have hstep : VoterApi.getVoteLoop pollId (a :: pre ++ r :: post) =
        VoterApi.getVoteLoop pollId (pre ++ r :: post) := by
      simp [VoterApi.getVoteLoop, ha]
    rw [hstep, ih (fun x hx => hpre x (List.mem_cons_of_mem _ hx))]

theorem getVoteLoop_container_found (pollId : Nat) (pre post : List VoterHistory)
    (r : VoterHistory) (hpre : ∀ x ∈ pre, x.PollId ≠ pollId) (hr : r.PollId = pollId) :
    VoterContainer.getVoteLoop pollId (pre ++ r :: post) = .ok r := by
  induction pre with
  | nil => simp [VoterContainer.getVoteLoop, hr]
  | cons a pre ih =>
    have ha : a.PollId ≠ pollId := hpre a (List.mem_cons_self _ _)
    have hstep : VoterContainer.getVoteLoop pollId (a :: pre ++ r :: post) =
        VoterContainer.getVoteLoop pollId (pre ++ r :: post) := by
      simp [VoterContainer.getVoteLoop, ha]
    rw [hstep, ih (fun x hx => hpre x (List.mem_cons_of_mem _ hx))]

/-- Replacing one position of a history: same length, the new record at that
position, every other position as before. -/
theorem set_positions (pre post : List VoterHistory) (old r : VoterHistory) :
    (pre ++ r :: post).length = (pre ++ old :: post).length ∧
    (pre ++ r :: post)[pre.length]? = some r ∧
    ∀ i, i ≠ pre.length → (pre ++ r :: post)[i]? = (pre ++ old :: post)[i]? := by
  refine ⟨by simp, ?_, ?_⟩
  · rw [List.getElem?_append_right (Nat.le_refl _)]
    simp
  intro i hi
  rw [← set_split pre post old r]
  exact List.getElem?_set_ne (Ne.symm hi)

/-- C10: `UpdateVote` fails exactly when no record of the history has the poll
id of the new record. Otherwise the returned history has the old length, holds
the new record at the position of the first record for that poll, agrees with
the old history at every other position, and `GetVote` for that poll on the
returned voter yields the new record. This holds for both packages. -/
theorem UpdateVote_fails_iff (v : Voter) (r : VoterHistory) :
    (((∃ e, VoterApi.UpdateVote v r = .error e) ↔
        ∀ x ∈ v.VoteHistory, x.PollId ≠ r.PollId) ∧
      ((∃ x ∈ v.VoteHistory, x.PollId = r.PollId) →
        ∃ w pre old post, VoterApi.UpdateVote v r = .ok w ∧
          v.VoteHistory = pre ++ old :: post ∧ (∀ x ∈ pre, x.PollId ≠ r.PollId) ∧
          old.PollId = r.PollId ∧
          w.VoteHistory.length = v.VoteHistory.length ∧
          w.VoteHistory[pre.length]? = some r ∧
          (∀ i, i ≠ pre.length → w.VoteHistory[i]? = v.VoteHistory[i]?) ∧
          VoterApi.GetVote w r.PollId = .ok r)) ∧
    (((∃ e, VoterContainer.UpdateVote v r = .error e) ↔
        ∀ x ∈ v.VoteHistory, x.PollId ≠ r.PollId) ∧
      ((∃ x ∈ v.VoteHistory, x.PollId = r.PollId) →
        ∃ w pre old post, VoterContainer.UpdateVote v r = .ok w ∧
          v.VoteHistory = pre ++ old :: post ∧ (∀ x ∈ pre, x.PollId ≠ r.PollId) ∧
          old.PollId = r.PollId ∧
          w.VoteHistory.length = v.VoteHistory.length ∧
          w.VoteHistory[pre.length]? = some r ∧
          (∀ i, i ≠ pre.length → w.VoteHistory[i]? = v.VoteHistory[i]?) ∧
          VoterContainer.GetVote w r.PollId = .ok r)) := by
  by_cases hex : ∃ x ∈ v.VoteHistory, x.PollId = r.PollId
  · obtain ⟨pre, old, post, hsplit, hpre, hold⟩ :=
      exists_first_poll r.PollId v.VoteHistory hex
    have hfind : findVoteIndex r.PollId v.VoteHistory 0 = (true, pre.length) := by
      rw [hsplit, findVoteIndex_found r.PollId pre post old 0 hpre hold, Nat.zero_add]
    have hnall : ¬ ∀ x ∈ v.VoteHistory, x.PollId ≠ r.PollId := by
      obtain ⟨x, hx, hxe⟩ := hex
      exact fun hall => hall x hx hxe
    have hset : v.VoteHistory.set pre.length r = pre ++ r :: post := by
      rw [hsplit, set_split]
    obtain ⟨hlen, hat, hother⟩ := set_positions pre post old r
    rw [← hsplit] at hlen hother
    refine ⟨⟨?_, ?_⟩, ⟨?_, ?_⟩⟩
    · simp only [VoterApi.UpdateVote, hfind]
      exact ⟨fun ⟨e, he⟩ => (by cases he), fun hall => absurd hall hnall⟩
    · intro _
      refine ⟨{ v with VoteHistory := v.VoteHistory.set pre.length r }, pre, old, post,
        by simp only [VoterApi.UpdateVote, hfind], hsplit, hpre, hold, ?_, ?_, ?_, ?_⟩
      · show (v.VoteHistory.set pre.length r).length = _
        rw [hset]; exact hlen
      · show (v.VoteHistory.set pre.length r)[pre.length]? = _
        rw [hset]; exact hat
      · intro i hi
        show (v.VoteHistory.set pre.length r)[i]? = _
        rw [hset]; exact hother i hi
      · show VoterApi.getVoteLoop r.PollId (v.VoteHistory.set pre.length r) = _
        rw [hset]; exact getVoteLoop_api_found r.PollId pre post r hpre rfl
    · simp only [VoterContainer.UpdateVote, hfind]
      exact ⟨fun ⟨e, he⟩ => (by cases he), fun hall => absurd hall hnall⟩
    · intro _
      refine ⟨{ v with VoteHistory := v.VoteHistory.set pre.length r }, pre, old, post,
        by simp only [VoterContainer.UpdateVote, hfind], hsplit, hpre, hold, ?_, ?_, ?_, ?_⟩
      · show (v.VoteHistory.set pre.length r).length = _
        rw [hset]; exact hlen
      · show (v.VoteHistory.set pre.length r)[pre.length]? = _
        rw [hset]; exact hat
      · intro i hi
        show (v.VoteHistory.set pre.length r)[i]? = _
        rw [hset]; exact hother i hi
      · show VoterContainer.getVoteLoop r.PollId (v.VoteHistory.set pre.length r) = _
        rw [hset]; exact getVoteLoop_container_found r.PollId pre post r hpre rfl
  · have hall : ∀ x ∈ v.VoteHistory, x.PollId ≠ r.PollId :=
      fun x hx hxe => hex ⟨x, hx, hxe⟩
    have hfind := findVoteIndex_not_found r.PollId v.VoteHistory 0 hall
    refine ⟨⟨?_, fun h => absurd h hex⟩, ⟨?_, fun h => absurd h hex⟩⟩
    · simp only [VoterApi.UpdateVote, hfind]
      exact ⟨fun _ => hall, fun _ => ⟨_, rfl⟩⟩
    · simp only [VoterContainer.UpdateVote, hfind]
      exact ⟨fun _ => hall, fun _ => ⟨_, rfl⟩⟩

/-- C10, witness: voter 1 with history `[0, 1, 2]` (poll ids) replaces its vote
for poll 1 by one with a new date. -/
theorem UpdateVote_fails_iff_witness :
    (∃ x ∈ (Voter.mk 1 "name2" "name2@place.com"
        [⟨0, 1, 5⟩, ⟨1, 1, 6⟩, ⟨2, 1, 7⟩]).VoteHistory, x.PollId = 1) ∧
    ∃ w pre old post,
      VoterApi.UpdateVote (Voter.mk 1 "name2" "name2@place.com"
        [⟨0, 1, 5⟩, ⟨1, 1, 6⟩, ⟨2, 1, 7⟩]) ⟨1, 1, 9⟩ = .ok w ∧
      (Voter.mk 1 "name2" "name2@place.com"
        [⟨0, 1, 5⟩, ⟨1, 1, 6⟩, ⟨2, 1, 7⟩]).VoteHistory = pre ++ old :: post ∧
      (∀ x ∈ pre, x.PollId ≠ 1) ∧ old.PollId = 1 ∧
      w.VoteHistory.length = (Voter.mk 1 "name2" "name2@place.com"
        [⟨0, 1, 5⟩, ⟨1, 1, 6⟩, ⟨2, 1, 7⟩]).VoteHistory.length ∧
      w.VoteHistory[pre.length]? = some ⟨1, 1, 9⟩ ∧
      (∀ i, i ≠ pre.length → w.VoteHistory[i]? = (Voter.mk 1 "name2" "name2@place.com"
        [⟨0, 1, 5⟩, ⟨1, 1, 6⟩, ⟨2, 1, 7⟩]).VoteHistory[i]?) ∧
      VoterApi.GetVote w 1 = .ok ⟨1, 1, 9⟩ :=
  ⟨⟨⟨1, 1, 6⟩, by decide, by decide⟩,
    (UpdateVote_fails_iff (Voter.mk 1 "name2" "name2@place.com"
        [⟨0, 1, 5⟩, ⟨1, 1, 6⟩, ⟨2, 1, 7⟩]) ⟨1, 1, 9⟩).1.2
      ⟨⟨1, 1, 6⟩, by decide, by decide⟩⟩

/-! ## Reading a vote, and round trips of the vote operations -/

theorem getVoteLoop_api_not_found (pollId : Nat) (l : List VoterHistory)
    (h : ∀ x ∈ l, x.PollId ≠ pollId) :
    VoterApi.getVoteLoop pollId l = .error "Vote does not exist." := by
  induction l with
  | nil => rfl
  | cons a l ih =>
    have ha : a.PollId ≠ pollId := h a (List.mem_cons_self _ _)
    simp only [VoterApi.getVoteLoop, ha, if_false]
    exact ih (fun x hx => h x (List.mem_cons_of_mem _ hx))

theorem getVoteLoop_container_not_found (pollId : Nat) (l : List VoterHistory)
    (h : ∀ x ∈ l, x.PollId ≠ pollId) :
    VoterContainer.getVoteLoop pollId l = .error "vote does not exist" := by
  induction l with
  | nil => rfl
  | cons a l ih =>
    have ha : a.PollId ≠ pollId := h a (List.mem_cons_self _ _)
    simp only [VoterContainer.getVoteLoop, ha, if_false]
    exact ih (fun x hx => h x (List.mem_cons_of_mem _ hx))

/-- C11: `GetVote` succeeds exactly when some record of the history has the
poll id, and the record it returns is the first one of the history with that
poll id. This holds for both packages. -/
theorem GetVote_succeeds_iff (v : Voter) (pollId : Nat) :
    (((∃ r, VoterApi.GetVote v pollId = .ok r) ↔
        ∃ x ∈ v.VoteHistory, x.PollId = pollId) ∧
      (∀ r, VoterApi.GetVote v pollId = .ok r →
        r.PollId = pollId ∧
        ∃ pre post, v.VoteHistory = pre ++ r :: post ∧ ∀ x ∈ pre, x.PollId ≠ pollId)) ∧
    (((∃ r, VoterContainer.GetVote v pollId = .ok r) ↔
        ∃ x ∈ v.VoteHistory, x.PollId = pollId) ∧
      (∀ r, VoterContainer.GetVote v pollId = .ok r →
        r.PollId = pollId ∧
        ∃ pre post, v.VoteHistory = pre ++ r :: post ∧ ∀ x ∈ pre, x.PollId ≠ pollId)) := by
  by_cases hex : ∃ x ∈ v.VoteHistory, x.PollId = pollId
  · obtain ⟨pre, r0, post, hsplit, hpre, hr0⟩ := exists_first_poll pollId v.VoteHistory hex
    have hapi : VoterApi.GetVote v pollId = .ok r0 := by
      rw [VoterApi.GetVote, hsplit]
      exact getVoteLoop_api_found pollId pre post r0 hpre hr0
    have hcon : VoterContainer.GetVote v pollId = .ok r0 := by
      rw [VoterContainer.GetVote, hsplit]
      exact getVoteLoop_container_found pollId pre post r0 hpre hr0
    refine ⟨⟨⟨fun _ => hex, fun _ => ⟨r0, hapi⟩⟩, ?_⟩, ⟨⟨fun _ => hex, fun _ => ⟨r0, hcon⟩⟩, ?_⟩⟩
    · intro r hr
      rw [hapi] at hr
      cases hr
      exact ⟨hr0, pre, post, hsplit, hpre⟩
    · intro r hr
      rw [hcon] at hr
      cases hr
      exact ⟨hr0, pre, post, hsplit, hpre⟩
  · have hall : ∀ x ∈ v.VoteHistory, x.PollId ≠ pollId :=
      fun x hx hxe => hex ⟨x, hx, hxe⟩
    have hapi : VoterApi.GetVote v pollId = .error "Vote does not exist." :=
      getVoteLoop_api_not_found pollId v.VoteHistory hall
    have hcon : VoterContainer.GetVote v pollId = .error "vote does not exist" :=
      getVoteLoop_container_not_found pollId v.VoteHistory hall
    refine ⟨⟨⟨?_, fun h => absurd h hex⟩, ?_⟩, ⟨⟨?_, fun h => absurd h hex⟩, ?_⟩⟩
    · rintro ⟨r, hr⟩
      rw [hapi] at hr
      cases hr
    · intro r hr
      rw [hapi] at hr
      cases hr
    · rintro ⟨r, hr⟩
      rw [hcon] at hr
      cases hr
    · intro r hr
      rw [hcon] at hr
      cases hr

/-- C11, witness: in the history `[0, 1, 2, 1]` (poll ids) of voter 1, `GetVote`
for poll 1 returns the record dated 6, the first of the two. -/
theorem GetVote_succeeds_iff_witness :
    VoterApi.GetVote (Voter.mk 1 "name2" "name2@place.com"
        [⟨0, 1, 5⟩, ⟨1, 1, 6⟩, ⟨2, 1, 7⟩, ⟨1, 1, 8⟩]) 1 = .ok ⟨1, 1, 6⟩ ∧
    (VoterHistory.mk 1 1 6).PollId = 1 ∧
    ∃ pre post, (Voter.mk 1 "name2" "name2@place.com"
        [⟨0, 1, 5⟩, ⟨1, 1, 6⟩, ⟨2, 1, 7⟩, ⟨1, 1, 8⟩]).VoteHistory = pre ++ ⟨1, 1, 6⟩ :: post ∧
      ∀ x ∈ pre, x.PollId ≠ 1 :=
  ⟨by decide,
    (GetVote_succeeds_iff (Voter.mk 1 "name2" "name2@place.com"
        [⟨0, 1, 5⟩, ⟨1, 1, 6⟩, ⟨2, 1, 7⟩, ⟨1, 1, 8⟩]) 1).1.2 ⟨1, 1, 6⟩ (by decide)⟩

theorem addVoteLoop_api_present (r : VoterHistory) (l : List VoterHistory)
    (h : ∃ x ∈ l, x.PollId = r.PollId) :
    VoterApi.addVoteLoop r l = some "Vote already exists." := by
  induction l with
  | nil => simp at h
  | cons a l ih =>
    by_cases ha : a.PollId = r.PollId
    · simp [VoterApi.addVoteLoop, ha]
    · obtain ⟨x, hx, hxe⟩ := h
      rcases List.mem_cons.1 hx with rfl | hx
      · exact absurd hxe ha
      · simp only [VoterApi.addVoteLoop, ha, if_false]
        exact ih ⟨x, hx, hxe⟩

theorem addVoteLoop_container_present (r : VoterHistory) (l : List VoterHistory)
    (h : ∃ x ∈ l, x.PollId = r.PollId) :
    VoterContainer.addVoteLoop r l = some "vote already exists" := by
  induction l with
  | nil => simp at h
  | cons a l ih =>
    by_cases ha : a.PollId = r.PollId
    · simp [VoterContainer.addVoteLoop, ha]
    · obtain ⟨x, hx, hxe⟩ := h
      rcases List.mem_cons.1 hx with rfl | hx
      · exact absurd hxe ha
      · simp only [VoterContainer.addVoteLoop, ha, if_false]
        exact ih ⟨x, hx, hxe⟩

theorem DeleteVote_api_of_split (v : Voter) (pollId : Nat) (pre post : List VoterHistory)
    (r : VoterHistory) (hsplit : v.VoteHistory = pre ++ r :: post)
    (hpre : ∀ x ∈ pre, x.PollId ≠ pollId) (hr : r.PollId = pollId) :
    VoterApi.DeleteVote v pollId = .ok { v with VoteHistory := pre ++ post } := by
  have hfind : findVoteIndex pollId v.VoteHistory 0 = (true, pre.length) := by
    rw [hsplit, findVoteIndex_found pollId pre post r 0 hpre hr, Nat.zero_add]
  simp only [VoterApi.DeleteVote, hfind]
  rw [hsplit, removeAt_split]

theorem DeleteVote_container_of_split (v : Voter) (pollId : Nat)
    (pre post : List VoterHistory) (r : VoterHistory)
    (hsplit : v.VoteHistory = pre ++ r :: post)
    (hpre : ∀ x ∈ pre, x.PollId ≠ pollId) (hr : r.PollId = pollId) :
    VoterContainer.DeleteVote v pollId = .ok { v with VoteHistory := pre ++ post } := by
  have hfind : findVoteIndex pollId v.VoteHistory 0 = (true, pre.length) := by
    rw [hsplit, findVoteIndex_found pollId pre post r 0 hpre hr, Nat.zero_add]
  simp only [VoterContainer.DeleteVote, hfind]
  rw [hsplit, removeAt_split]

theorem DeleteVote_container_of_absent (v : Voter) (pollId : Nat)
    (h : ∀ x ∈ v.VoteHistory, x.PollId ≠ pollId) :
    VoterContainer.DeleteVote v pollId = .error "vote does not exist" := by
  simp only [VoterContainer.DeleteVote, findVoteIndex_not_found pollId v.VoteHistory 0 h]

/-- C12: when no record of the history has the poll id of `r`, `AddVote r`
succeeds, `AddVote r` on the result fails with "Vote already exists.", and
`DeleteVote` of that poll on the result succeeds and gives back the original
voter, so its history is the original one. -/
theorem AddVote_then_DeleteVote (v : Voter) (r : VoterHistory)
    (h : ∀ x ∈ v.VoteHistory, x.PollId ≠ r.PollId) :
    ∃ w, VoterApi.AddVote v r = .ok w ∧
      VoterApi.AddVote w r = .error "Vote already exists." ∧
      ∃ u, VoterApi.DeleteVote w r.PollId = .ok u ∧ u.VoteHistory = v.VoteHistory ∧ u = v := by
  have hnone := (addVoteLoop_api_eq_none_iff r v.VoteHistory).2 h
  refine ⟨{ v with VoteHistory := v.VoteHistory ++ [r] }, ?_, ?_, v, ?_, rfl, rfl⟩
  · simp only [VoterApi.AddVote, hnone]
  · have hpres : VoterApi.addVoteLoop r (v.VoteHistory ++ [r]) = some "Vote already exists." :=
      addVoteLoop_api_present r _ ⟨r, by simp, rfl⟩
    simp only [VoterApi.AddVote, hpres]
  · rw [DeleteVote_api_of_split { v with VoteHistory := v.VoteHistory ++ [r] } r.PollId
      v.VoteHistory [] r rfl h rfl]
    simp

/-- C12, witness: voter 1 with the empty history and a vote for poll 0, the
history going `[] -> [r] -> []`. -/
theorem AddVote_then_DeleteVote_witness :
    (∀ x ∈ (Voter.mk 1 "name2" "name2@place.com" []).VoteHistory, x.PollId ≠ 0) ∧
    ∃ w, VoterApi.AddVote (Voter.mk 1 "name2" "name2@place.com" []) ⟨0, 1, 5⟩ = .ok w ∧
      VoterApi.AddVote w ⟨0, 1, 5⟩ = .error "Vote already exists." ∧
      ∃ u, VoterApi.DeleteVote w 0 = .ok u ∧ u.VoteHistory = [] ∧
        u = Voter.mk 1 "name2" "name2@place.com" [] :=
  ⟨by decide,
    AddVote_then_DeleteVote (Voter.mk 1 "name2" "name2@place.com" []) ⟨0, 1, 5⟩ (by decide)⟩

/-- C13: when the poll ids of the history are pairwise distinct and
`DeleteVote` of a poll succeeds, `GetVote` of that poll on the returned voter
fails with "vote does not exist". -/
theorem DeleteVote_then_GetVote (v w : Voter) (pollId : Nat)
    (hd : v.VoteHistory.Pairwise (fun a b => a.PollId ≠ b.PollId))
    (hw : VoterContainer.DeleteVote v pollId = .ok w) :
    VoterContainer.GetVote w pollId = .error "vote does not exist" := by
  by_cases hex : ∃ x ∈ v.VoteHistory, x.PollId = pollId
  · obtain ⟨pre, r, post, hsplit, hpre, hr⟩ := exists_first_poll pollId v.VoteHistory hex
    rw [DeleteVote_container_of_split v pollId pre post r hsplit hpre hr] at hw
    cases hw
    rw [hsplit] at hd
    have hd2 := List.pairwise_append.1 hd
    have hpost : ∀ x ∈ post, x.PollId ≠ pollId := by
      intro x hx
      have := (List.pairwise_cons.1 hd2.2.1).1 x hx
      rw [hr] at this
      exact fun hxe => this hxe.symm
    apply getVoteLoop_container_not_found
    intro x hx
    rcases List.mem_append.1 hx with hx | hx
    · exact hpre x hx
    · exact hpost x hx
  · have hall : ∀ x ∈ v.VoteHistory, x.PollId ≠ pollId :=
      fun x hx hxe => hex ⟨x, hx, hxe⟩
    rw [DeleteVote_container_of_absent v pollId hall] at hw
    cases hw

/-- C13, witness: voter 1 with votes for polls 0, 1 and 2 deletes poll 2 (the
call of `Test_DeleteVote`). -/
theorem DeleteVote_then_GetVote_witness :
    VoterContainer.DeleteVote (Voter.mk 1 "name2" "name2@place.com"
        [⟨0, 1, 5⟩, ⟨1, 1, 6⟩, ⟨2, 1, 7⟩]) 2
      = .ok (Voter.mk 1 "name2" "name2@place.com" [⟨0, 1, 5⟩, ⟨1, 1, 6⟩]) ∧
    VoterContainer.GetVote (Voter.mk 1 "name2" "name2@place.com" [⟨0, 1, 5⟩, ⟨1, 1, 6⟩]) 2
      = .error "vote does not exist" :=
  ⟨by decide,
    DeleteVote_then_GetVote (Voter.mk 1 "name2" "name2@place.com"
        [⟨0, 1, 5⟩, ⟨1, 1, 6⟩, ⟨2, 1, 7⟩])
      (Voter.mk 1 "name2" "name2@place.com" [⟨0, 1, 5⟩, ⟨1, 1, 6⟩]) 2
      (by decide) (by decide)⟩

/-- C18: `AddVoter`, `UpdateVoter` and `DeleteVoter` for the id `k` leave every
other entry of the in-memory store as it was: for `j ≠ k`, `GetVoter j` gives
the same result (the same voter or the same failure) before and after,
whether the operation succeeded or failed. -/
theorem GetVoter_other_id (s : VoterApi.VoterList) (voter : Voter) (k j : Nat)
    (hk : voter.VoterId = k) (hj : j ≠ k) :
    VoterApi.GetVoter (VoterApi.AddVoter s voter).1 j = VoterApi.GetVoter s j ∧
    VoterApi.GetVoter (VoterApi.UpdateVoter s voter).1 j = VoterApi.GetVoter s j ∧
    VoterApi.GetVoter (VoterApi.DeleteVoter s k).1 j = VoterApi.GetVoter s j := by
  subst hk
  refine ⟨?_, ?_, ?_⟩
  · cases hl : s.voters.lookup voter.VoterId with
    | none => simp [VoterApi.AddVoter, VoterApi.GetVoter, hl, AList.lookup_insert_ne hj]
    | some old => simp [VoterApi.AddVoter, hl]
  · cases hl : s.voters.lookup voter.VoterId with
    | none => simp [VoterApi.UpdateVoter, hl]
    | some old => simp [VoterApi.UpdateVoter, VoterApi.GetVoter, hl, AList.lookup_insert_ne hj]
  · cases hl : s.voters.lookup voter.VoterId with
    | none => simp [VoterApi.DeleteVoter, hl]
    | some old => simp [VoterApi.DeleteVoter, VoterApi.GetVoter, hl, AList.lookup_erase_ne hj]

/-- C18, witness: operations on voter 1 of a store holding voters 0 and 1, read
back at id 0. -/
theorem GetVoter_other_id_witness :
    VoterApi.GetVoter (VoterApi.AddVoter storeWithTwo ⟨1, "name3", "name3@place.com", []⟩).1 0
      = VoterApi.GetVoter storeWithTwo 0 ∧
    VoterApi.GetVoter (VoterApi.UpdateVoter storeWithTwo ⟨1, "name3", "name3@place.com", []⟩).1 0
      = VoterApi.GetVoter storeWithTwo 0 ∧
    VoterApi.GetVoter (VoterApi.DeleteVoter storeWithTwo 1).1 0
      = VoterApi.GetVoter storeWithTwo 0 :=
  GetVoter_other_id storeWithTwo ⟨1, "name3", "name3@place.com", []⟩ 1 0 rfl (by decide)


/-! ## The request layer keeps the stored voters valid -/

theorem lookup_insert_some {k k2 : String} {a v : Voter} {m : AList (fun _ : String => Voter)}
    (h : (m.insert k a).lookup k2 = some v) : (k2 = k ∧ v = a) ∨ m.lookup k2 = some v := by
  by_cases hk : k2 = k
  · subst hk
    rw [AList.lookup_insert] at h
    exact Or.inl ⟨rfl, (Option.some.inj h).symm⟩
  · rw [AList.lookup_insert_ne hk] at h
    exact Or.inr h

theorem lookup_erase_some {k k2 : String} {v : Voter} {m : AList (fun _ : String => Voter)}
    (h : (m.erase k).lookup k2 = some v) : m.lookup k2 = some v := by
  by_cases hk : k2 = k
  · subst hk
    rw [AList.lookup_erase] at h
    cases h
  · rwa [AList.lookup_erase_ne hk] at h

theorem lookup_foldl_erase_some (keys : List String) {k2 : String} {v : Voter}
    (m : AList (fun _ : String => Voter))
    (h : (keys.foldl (fun docs key => docs.erase key) m).lookup k2 = some v) :
    m.lookup k2 = some v := by
  induction keys generalizing m with
  | nil => exact h
  | cons k keys ih => exact lookup_erase_some (ih (m.erase k) h)

/-- What `ValidateVotes` of `Voter-Container/db` accepts. -/
theorem ValidateVotes_container_iff (v : Voter) :
    VoterContainer.ValidateVotes v = none ↔
      v.VoteHistory.Pairwise (fun a b => a.PollId ≠ b.PollId) ∧
        ∀ r ∈ v.VoteHistory, r.VoterId = v.VoterId := by
  simp [VoterContainer.ValidateVotes, validateLoop_container_eq_none_iff]

theorem UpdateVote_container_of_split (v : Voter) (r : VoterHistory)
    (pre post : List VoterHistory) (old : VoterHistory)
    (hsplit : v.VoteHistory = pre ++ old :: post)
    (hpre : ∀ x ∈ pre, x.PollId ≠ r.PollId) (hold : old.PollId = r.PollId) :
    VoterContainer.UpdateVote v r = .ok { v with VoteHistory := pre ++ r :: post } := by
  have hfind : findVoteIndex r.PollId v.VoteHistory 0 = (true, pre.length) := by
    rw [hsplit, findVoteIndex_found r.PollId pre post old 0 hpre hold, Nat.zero_add]
  simp only [VoterContainer.UpdateVote, hfind]
  rw [hsplit, set_split]

theorem UpdateVote_container_of_absent (v : Voter) (r : VoterHistory)
    (h : ∀ x ∈ v.VoteHistory, x.PollId ≠ r.PollId) :
    VoterContainer.UpdateVote v r = .error "vote does not exist" := by
  simp only [VoterContainer.UpdateVote, findVoteIndex_not_found r.PollId v.VoteHistory 0 h]

/-- A valid voter stays valid under `AddVote` of a vote that names it. -/
theorem AddVote_container_valid (v w : Voter) (r : VoterHistory)
    (hv : VoterContainer.ValidateVotes v = none) (hid : v.VoterId = r.VoterId)
    (hw : VoterContainer.AddVote v r = .ok w) :
    VoterContainer.ValidateVotes w = none := by
  rw [ValidateVotes_container_iff] at hv ⊢
  cases hl : VoterContainer.addVoteLoop r v.VoteHistory with
  | some err => simp [VoterContainer.AddVote, hl] at hw
  | none =>
    have hfresh := (addVoteLoop_container_eq_none_iff r v.VoteHistory).1 hl
    simp only [VoterContainer.AddVote, hl, Except.ok.injEq] at hw
    subst hw
    refine ⟨?_, ?_⟩
    · refine List.pairwise_append.2 ⟨hv.1, List.pairwise_singleton _ _, ?_⟩
      intro a ha b hb
      rw [List.mem_singleton.1 hb]
      exact hfresh a ha
    · intro x hx
      rcases List.mem_append.1 hx with hx | hx
      · exact hv.2 x hx
      · rw [List.mem_singleton.1 hx]
        exact hid.symm

/-- A valid voter stays valid under `UpdateVote` with a vote that names it. -/
theorem UpdateVote_container_valid (v w : Voter) (r : VoterHistory)
    (hv : VoterContainer.ValidateVotes v = none) (hid : v.VoterId = r.VoterId)
    (hw : VoterContainer.UpdateVote v r = .ok w) :
    VoterContainer.ValidateVotes w = none := by
  rw [ValidateVotes_container_iff] at hv ⊢
  by_cases hex : ∃ x ∈ v.VoteHistory, x.PollId = r.PollId
  · obtain ⟨pre, old, post, hsplit, hpre, hold⟩ :=
      exists_first_poll r.PollId v.VoteHistory hex
    rw [UpdateVote_container_of_split v r pre post old hsplit hpre hold] at hw
    cases hw
    have hmap : (pre ++ r :: post).map (fun x => x.PollId)
        = (pre ++ old :: post).map (fun x => x.PollId) := by
      simp [hold]
    refine ⟨?_, ?_⟩
    · have h1 := hv.1
      rw [hsplit] at h1
      have h2 : List.Pairwise (fun a b : Nat => a ≠ b)
          ((pre ++ old :: post).map (fun x => x.PollId)) := List.pairwise_map.2 h1
      rw [← hmap] at h2
      exact List.pairwise_map.1 h2
    · intro x hx
      rcases List.mem_append.1 hx with hx | hx
      · exact hv.2 x (by rw [hsplit]; exact List.mem_append_left _ hx)
      · rcases List.mem_cons.1 hx with rfl | hx
        · exact hid.symm
        · exact hv.2 x (by
            rw [hsplit]
            exact List.mem_append_right _ (List.mem_cons_of_mem _ hx))
  · have hall : ∀ x ∈ v.VoteHistory, x.PollId ≠ r.PollId :=
      fun x hx hxe => hex ⟨x, hx, hxe⟩
    rw [UpdateVote_container_of_absent v r hall] at hw
    cases hw

/-- A valid voter stays valid under `DeleteVote`. -/
theorem DeleteVote_container_valid (v w : Voter) (pollId : Nat)
    (hv : VoterContainer.ValidateVotes v = none)
    (hw : VoterContainer.DeleteVote v pollId = .ok w) :
    VoterContainer.ValidateVotes w = none := by
  rw [ValidateVotes_container_iff] at hv ⊢
  by_cases hex : ∃ x ∈ v.VoteHistory, x.PollId = pollId
  · obtain ⟨pre, r, post, hsplit, hpre, hr⟩ := exists_first_poll pollId v.VoteHistory hex
    rw [DeleteVote_container_of_split v pollId pre post r hsplit hpre hr] at hw
    cases hw
    have hsub : List.Sublist (pre ++ post) v.VoteHistory := by
      rw [hsplit]
      exact List.Sublist.append_left (List.sublist_cons_self r post) pre
    exact ⟨hv.1.sublist hsub, fun x hx => hv.2 x (hsub.subset hx)⟩
  · have hall : ∀ x ∈ v.VoteHistory, x.PollId ≠ pollId :=
      fun x hx hxe => hex ⟨x, hx, hxe⟩
    rw [DeleteVote_container_of_absent v pollId hall] at hw
    cases hw

theorem upsertVoter_docs (f : VoterContainer.CacheFaults) (db : VoterContainer.VoterList)
    (w : Voter) (key : String) (v : Voter)
    (h : (VoterContainer.upsertVoter f db w).1.docs.lookup key = some v) :
    (key = VoterContainer.redisKeyFromId w.VoterId ∧ v = w) ∨ db.docs.lookup key = some v := by
  unfold VoterContainer.upsertVoter at h
  split at h
  · exact Or.inr h
  · exact lookup_insert_some h

theorem AddVoter_docs (f : VoterContainer.CacheFaults) (db : VoterContainer.VoterList)
    (w : Voter) (key : String) (v : Voter)
    (h : (VoterContainer.AddVoter f db w).1.docs.lookup key = some v) :
    (key = VoterContainer.redisKeyFromId w.VoterId ∧ v = w) ∨ db.docs.lookup key = some v := by
  unfold VoterContainer.AddVoter at h
  split at h
  · exact Or.inr h
  · exact upsertVoter_docs f db w key v h

theorem UpdateVoter_docs (f : VoterContainer.CacheFaults) (db : VoterContainer.VoterList)
    (w : Voter) (key : String) (v : Voter)
    (h : (VoterContainer.UpdateVoter f db w).1.docs.lookup key = some v) :
    (key = VoterContainer.redisKeyFromId w.VoterId ∧ v = w) ∨ db.docs.lookup key = some v := by
  unfold VoterContainer.UpdateVoter at h
  split at h
  · exact Or.inr h
  · exact upsertVoter_docs f db w key v h

theorem DeleteVoter_docs (f : VoterContainer.CacheFaults) (db : VoterContainer.VoterList)
    (id : Nat) (key : String) (v : Voter)
    (h : (VoterContainer.DeleteVoter f db id).1.docs.lookup key = some v) :
    db.docs.lookup key = some v := by
  unfold VoterContainer.DeleteVoter at h
  split at h
  · exact h
  · split at h
    · exact h
    · exact lookup_erase_some h

theorem DeleteAll_docs (f : VoterContainer.CacheFaults) (db : VoterContainer.VoterList)
    (key : String) (v : Voter)
    (h : (VoterContainer.DeleteAll f db).1.docs.lookup key = some v) :
    db.docs.lookup key = some v := by
  unfold VoterContainer.DeleteAll at h
  split at h
  · exact h
  · split at h
    · exact h
    · split at h
      · exact h
      · exact lookup_foldl_erase_some _ _ h

theorem GetVoter_container_ok (f : VoterContainer.CacheFaults)
    (db : VoterContainer.VoterList) (id : Nat) (voter : Voter)
    (h : VoterContainer.GetVoter f db id = .ok voter) :
    f.jsonGetErr = none ∧
      db.docs.lookup (VoterContainer.redisKeyFromId id) = some voter := by
  unfold VoterContainer.GetVoter VoterContainer.getItemFromRedis at h
  split at h
  · cases h
  · rename_i hget
    split at h
    · rename_i item hl
      cases h
      exact ⟨hget, hl⟩
    · cases h

/-- A property of the stored documents holds after `withVoter` when it holds
after the continuation, for the voter that was fetched. -/
theorem withVoter_docs (P : String → Voter → Prop) (db : VoterContainer.VoterList)
    (f : VoterContainer.CacheFaults)
    (id : Option Nat) (run : Voter → VoterContainer.VoterList × Nat)
    (hdb : ∀ key v, db.docs.lookup key = some v → P key v)
    (hrun : ∀ i voter, id = some i → VoterContainer.GetVoter f db i = .ok voter →
      ∀ key v, (run voter).1.docs.lookup key = some v → P key v) :
    ∀ key v, (VoterContainerApi.withVoter db f id run).1.docs.lookup key = some v →
      P key v := by
  cases id with
  | none => exact hdb
  | some i =>
    cases hg : VoterContainer.GetVoter f db i with
    | error e =>
      simp only [VoterContainerApi.withVoter, hg]
      exact hdb
    | ok voter =>
      simp only [VoterContainerApi.withVoter, hg]
      exact hrun i voter rfl hg

/-- Serving one request keeps a property `P` of the stored documents, when
`P` holds of every validated voter under the key of its id and is kept by the
vote operations the handlers perform on a fetched voter. -/
theorem handle_docs (P : String → Voter → Prop) (db : VoterContainer.VoterList)
    (f : VoterContainer.CacheFaults) (req : VoterContainerApi.Request)
    (hbody : ∀ w, VoterContainer.ValidateVotes w = none →
      P (VoterContainer.redisKeyFromId w.VoterId) w)
    (hadd : ∀ key v w r, P key v → v.VoterId = r.VoterId →
      VoterContainer.AddVote v r = .ok w → P (VoterContainer.redisKeyFromId w.VoterId) w)
    (hupd : ∀ key v w r, P key v → v.VoterId = r.VoterId →
      VoterContainer.UpdateVote v r = .ok w → P (VoterContainer.redisKeyFromId w.VoterId) w)
    (hdel : ∀ key v w p, P key v →
      VoterContainer.DeleteVote v p = .ok w → P (VoterContainer.redisKeyFromId w.VoterId) w)
    (hdb : ∀ key v, db.docs.lookup key = some v → P key v) :
    ∀ key v, (VoterContainerApi.handle db f req).1.docs.lookup key = some v → P key v := by
  have hfetch : ∀ i voter, VoterContainer.GetVoter f db i = .ok voter →
      P (VoterContainer.redisKeyFromId i) voter :=
    fun i voter hg => hdb _ voter (GetVoter_container_ok f db i voter hg).2
  have hwrite : ∀ w, P (VoterContainer.redisKeyFromId w.VoterId) w → ∀ key v,
      (match VoterContainer.UpdateVoter f db w with
        | (db2, some _) => (db2, 500)
        | (db2, none) => (db2, 200)).1.docs.lookup key = some v →
      P key v := by
    intro w hw key v h
    have h2 : (VoterContainer.UpdateVoter f db w).1.docs.lookup key = some v := by
      revert h
      rcases VoterContainer.UpdateVoter f db w with ⟨db2, _ | e⟩ <;> exact id
    rcases UpdateVoter_docs f db w key v h2 with ⟨rfl, rfl⟩ | hold
    · exact hw
    · exact hdb key v hold
  cases req with
  | ListAllVoters =>
    intro key v h
    simp only [VoterContainerApi.handle, VoterContainerApi.ListAllVoters] at h
    split at h <;> exact hdb key v h
  | AddVoter body =>
    intro key v h
    simp only [VoterContainerApi.handle, VoterContainerApi.AddVoter] at h
    cases body with
    | none => exact hdb key v h
    | some voter =>
      cases hval : VoterContainer.ValidateVotes voter with
      | some e =>
        simp only [hval] at h
        exact hdb key v h
      | none =>
        simp only [hval] at h
        have h2 : (VoterContainer.AddVoter f db voter).1.docs.lookup key = some v := by
          revert h
          rcases VoterContainer.AddVoter f db voter with ⟨db2, _ | e⟩ <;> exact id
        rcases AddVoter_docs f db voter key v h2 with ⟨rfl, rfl⟩ | hold
        · exact hbody v hval
        · exact hdb key v hold
  | UpdateVoter id body =>
    intro key v h
    simp only [VoterContainerApi.handle, VoterContainerApi.UpdateVoter] at h
    cases id with
    | none => exact hdb key v h
    | some i =>
      cases body with
      | none => exact hdb key v h
      | some voter =>
        simp only at h
        split at h
        · exact hdb key v h
        · cases hval : VoterContainer.ValidateVotes voter with
          | some e =>
            simp only [hval] at h
            exact hdb key v h
          | none =>
            simp only [hval] at h
            exact hwrite voter (hbody voter hval) key v h
  | DeleteAllVoters =>
    intro key v h
    simp only [VoterContainerApi.handle, VoterContainerApi.DeleteAllVoters] at h
    have h2 : (VoterContainer.DeleteAll f db).1.docs.lookup key = some v := by
      revert h
      rcases VoterContainer.DeleteAll f db with ⟨db2, _ | e⟩ <;> exact id
    exact hdb key v (DeleteAll_docs f db key v h2)
  | DeleteVoter id =>
    intro key v h
    simp only [VoterContainerApi.handle, VoterContainerApi.DeleteVoter] at h
    cases id with
    | none => exact hdb key v h
    | some i =>
      have h2 : (VoterContainer.DeleteVoter f db i).1.docs.lookup key = some v := by
        revert h
        simp only
        rcases VoterContainer.DeleteVoter f db i with ⟨db2, _ | e⟩ <;> exact id
      exact hdb key v (DeleteVoter_docs f db i key v h2)
  | GetVoter id =>
    exact withVoter_docs _ db f id _ hdb (fun _ _ _ _ => hdb)
  | GetAllVotes id =>
    exact withVoter_docs _ db f id _ hdb (fun _ _ _ _ => hdb)
  | AddVote id body =>
    refine withVoter_docs _ db f id _ hdb ?_
    intro i voter _ hg key v h
    cases body with
    | none => exact hdb key v h
    | some vote =>
      simp only at h
      split at h
      · exact hdb key v h
      · rename_i hid
        have hid2 : voter.VoterId = vote.VoterId := not_not.1 hid
        cases hadd2 : VoterContainer.AddVote voter vote with
        | error e =>
          simp only [hadd2] at h
          exact hdb key v h
        | ok w =>
          simp only [hadd2] at h
          exact hwrite w (hadd _ voter w vote (hfetch i voter hg) hid2 hadd2) key v h
  | GetVote id pollid =>
    refine withVoter_docs _ db f id _ hdb ?_
    intro i voter _ hg key v h
    cases pollid with
    | none => exact hdb key v h
    | some p =>
      simp only at h
      split at h <;> exact hdb key v h
  | UpdateVote id pollid body =>
    refine withVoter_docs _ db f id _ hdb ?_
    intro i voter _ hg key v h
    cases pollid with
    | none => exact hdb key v h
    | some p =>
      cases body with
      | none => exact hdb key v h
      | some vote =>
        simp only at h
        split at h
        · exact hdb key v h
        · split at h
          · exact hdb key v h
          · rename_i _ hid
            have hid2 : voter.VoterId = vote.VoterId := not_not.1 hid
            cases hupd2 : VoterContainer.UpdateVote voter vote with
            | error e =>
              simp only [hupd2] at h
              exact hdb key v h
            | ok w =>
              simp only [hupd2] at h
              exact hwrite w (hupd _ voter w vote (hfetch i voter hg) hid2 hupd2) key v h
  | DeleteVote id pollid =>
    refine withVoter_docs _ db f id _ hdb ?_
    intro i voter _ hg key v h
    cases pollid with
    | none => exact hdb key v h
    | some p =>
      simp only at h
      cases hdel2 : VoterContainer.DeleteVote voter p with
      | error e =>
        simp only [hdel2] at h
        exact hdb key v h
      | ok w =>
        simp only [hdel2] at h
        exact hwrite w (hdel _ voter w p (hfetch i voter hg) hdel2) key v h

/-- Serving one request keeps every stored voter valid. -/
theorem handle_valid (db : VoterContainer.VoterList) (f : VoterContainer.CacheFaults)
    (req : VoterContainerApi.Request)
    (hdb : ∀ key v, db.docs.lookup key = some v → VoterContainer.ValidateVotes v = none) :
    ∀ key v, (VoterContainerApi.handle db f req).1.docs.lookup key = some v →
      VoterContainer.ValidateVotes v = none :=
  handle_docs (fun _ v => VoterContainer.ValidateVotes v = none) db f req
    (fun _ hw => hw)
    (fun _ v w r hv hid hw => AddVote_container_valid v w r hv hid hw)
    (fun _ v w r hv hid hw => UpdateVote_container_valid v w r hv hid hw)
    (fun _ v w p hv hw => DeleteVote_container_valid v w p hv hw)
    hdb

/-- Serving one request keeps every document under the key of its voter's id. -/
theorem handle_keyed (db : VoterContainer.VoterList) (f : VoterContainer.CacheFaults)
    (req : VoterContainerApi.Request)
    (hdb : ∀ key v, db.docs.lookup key = some v →
      key = VoterContainer.redisKeyFromId v.VoterId) :
    ∀ key v, (VoterContainerApi.handle db f req).1.docs.lookup key = some v →
      key = VoterContainer.redisKeyFromId v.VoterId :=
  handle_docs (fun key v => key = VoterContainer.redisKeyFromId v.VoterId) db f req
    (fun _ _ => rfl) (fun _ _ _ _ _ _ _ => rfl) (fun _ _ _ _ _ _ _ => rfl)
    (fun _ _ _ _ _ _ => rfl) hdb

theorem serve_valid (reqs : List (VoterContainer.CacheFaults × VoterContainerApi.Request))
    (db : VoterContainer.VoterList)
    (hdb : ∀ key v, db.docs.lookup key = some v → VoterContainer.ValidateVotes v = none) :
    ∀ key v, (VoterContainerApi.serve db reqs).docs.lookup key = some v →
      VoterContainer.ValidateVotes v = none := by
  induction reqs generalizing db with
  | nil => exact hdb
  | cons call rest ih => exact ih _ (handle_valid db call.1 call.2 hdb)

theorem serve_keyed (reqs : List (VoterContainer.CacheFaults × VoterContainerApi.Request))
    (db : VoterContainer.VoterList)
    (hdb : ∀ key v, db.docs.lookup key = some v →
      key = VoterContainer.redisKeyFromId v.VoterId) :
    ∀ key v, (VoterContainerApi.serve db reqs).docs.lookup key = some v →
      key = VoterContainer.redisKeyFromId v.VoterId := by
  induction reqs generalizing db with
  | nil => exact hdb
  | cons call rest ih => exact ih _ (handle_keyed db call.1 call.2 hdb)

/-- C14: starting from the empty store, after any sequence of requests to the
handlers, every voter held in the store passes `ValidateVotes`: the poll ids of
its history are pairwise distinct and every record carries the voter's id.
This holds whatever commands of the cache fail on the way, so in particular
when every write succeeds. -/
theorem served_voters_valid
    (reqs : List (VoterContainer.CacheFaults × VoterContainerApi.Request)) (key : String)
    (v : Voter)
    (h : (VoterContainerApi.serve VoterContainer.NewVoterList reqs).docs.lookup key = some v) :
    VoterContainer.ValidateVotes v = none ∧
      v.VoteHistory.Pairwise (fun a b => a.PollId ≠ b.PollId) ∧
      ∀ r ∈ v.VoteHistory, r.VoterId = v.VoterId := by
  have hval := serve_valid reqs VoterContainer.NewVoterList
    (fun key v h => by simp [VoterContainer.NewVoterList] at h) key v h
  exact ⟨hval, (ValidateVotes_container_iff v).1 hval⟩

/-- C14, witness: after `sampleRequests` the store holds voter 1 with votes for
polls 0 and 1. -/
theorem served_voters_valid_witness :
    (VoterContainerApi.serve VoterContainer.NewVoterList sampleRequests).docs.lookup "voter:1"
      = some ⟨1, "name2", "name2@place.com", [⟨0, 1, 5⟩, ⟨1, 1, 9⟩]⟩ ∧
    VoterContainer.ValidateVotes ⟨1, "name2", "name2@place.com", [⟨0, 1, 5⟩, ⟨1, 1, 9⟩]⟩
      = none ∧
    (Voter.mk 1 "name2" "name2@place.com" [⟨0, 1, 5⟩, ⟨1, 1, 9⟩]).VoteHistory.Pairwise
      (fun a b => a.PollId ≠ b.PollId) ∧
    ∀ r ∈ (Voter.mk 1 "name2" "name2@place.com" [⟨0, 1, 5⟩, ⟨1, 1, 9⟩]).VoteHistory,
      r.VoterId = 1 :=
  ⟨by decide,
    served_voters_valid sampleRequests "voter:1"
      ⟨1, "name2", "name2@place.com", [⟨0, 1, 5⟩, ⟨1, 1, 9⟩]⟩ (by decide)⟩

/-! ## Status codes of the handlers -/

theorem GetVoter_container_of_lookup (f : VoterContainer.CacheFaults)
    (db : VoterContainer.VoterList) (id : Nat) :
    VoterContainer.GetVoter f db id =
      match f.jsonGetErr with
      | some err => .error err
      | none =>
        match db.docs.lookup (VoterContainer.redisKeyFromId id) with
        | some item => .ok item
        | none => .error "redis: nil" := rfl

theorem GetVoter_container_absent (f : VoterContainer.CacheFaults)
    (db : VoterContainer.VoterList) (id : Nat)
    (h : db.docs.lookup (VoterContainer.redisKeyFromId id) = none) :
    ∃ err, VoterContainer.GetVoter f db id = .error err := by
  rw [GetVoter_container_of_lookup, h]
  cases f.jsonGetErr with
  | none => exact ⟨_, rfl⟩
  | some err => exact ⟨err, rfl⟩

theorem doesKeyExist_absent (f : VoterContainer.CacheFaults) (db : VoterContainer.VoterList)
    (id : Nat) (h : db.docs.lookup (VoterContainer.redisKeyFromId id) = none) :
    VoterContainer.doesKeyExist f db id = false := by
  unfold VoterContainer.doesKeyExist
  cases f.existsErr with
  | none => simp [h]
  | some err => rfl

/-- `UpdateVoter` of the store when the key holds a voter and both commands go
through. -/
theorem UpdateVoter_container_present (f : VoterContainer.CacheFaults)
    (db : VoterContainer.VoterList) (w old : Voter)
    (h : db.docs.lookup (VoterContainer.redisKeyFromId w.VoterId) = some old)
    (hex : f.existsErr = none) (hset : f.jsonSetErr = none) :
    VoterContainer.UpdateVoter f db w =
      (⟨db.docs.insert (VoterContainer.redisKeyFromId w.VoterId) w⟩, none) := by
  simp [VoterContainer.UpdateVoter, VoterContainer.doesKeyExist, VoterContainer.upsertVoter, h,
    hex, hset]

/-- `UpdateVoter` of the store when one of its two commands fails: an error,
and the store as it was. -/
theorem UpdateVoter_container_fault (f : VoterContainer.CacheFaults)
    (db : VoterContainer.VoterList) (w : Voter)
    (h : f.existsErr ≠ none ∨ f.jsonSetErr ≠ none) :
    ∃ err, VoterContainer.UpdateVoter f db w = (db, some err) := by
  unfold VoterContainer.UpdateVoter VoterContainer.doesKeyExist VoterContainer.upsertVoter
  cases hex : f.existsErr with
  | some e => exact ⟨"Voter does not exist", by simp⟩
  | none =>
    cases hset : f.jsonSetErr with
    | none =>
      rw [hex, hset] at h
      simp at h
    | some e =>
      cases hl : db.docs.lookup (VoterContainer.redisKeyFromId w.VoterId) with
      | none => exact ⟨"Voter does not exist", by simp⟩
      | some old => exact ⟨e, by simp⟩

theorem UpdateVoter_container_absent (f : VoterContainer.CacheFaults)
    (db : VoterContainer.VoterList) (w : Voter)
    (h : db.docs.lookup (VoterContainer.redisKeyFromId w.VoterId) = none) :
    VoterContainer.UpdateVoter f db w = (db, some "Voter does not exist") := by
  simp [VoterContainer.UpdateVoter, doesKeyExist_absent f db w.VoterId h]

theorem DeleteVoter_container_absent (f : VoterContainer.CacheFaults)
    (db : VoterContainer.VoterList) (id : Nat)
    (h : db.docs.lookup (VoterContainer.redisKeyFromId id) = none) :
    VoterContainer.DeleteVoter f db id = (db, some "no voter for id") := by
  simp [VoterContainer.DeleteVoter, doesKeyExist_absent f db id h]

theorem AddVote_container_of_present (v : Voter) (r : VoterHistory)
    (h : ∃ x ∈ v.VoteHistory, x.PollId = r.PollId) :
    VoterContainer.AddVote v r = .error "vote already exists" := by
  simp only [VoterContainer.AddVote, addVoteLoop_container_present r v.VoteHistory h]

theorem AddVote_container_of_absent (v : Voter) (r : VoterHistory)
    (h : ∀ x ∈ v.VoteHistory, x.PollId ≠ r.PollId) :
    VoterContainer.AddVote v r = .ok { v with VoteHistory := v.VoteHistory ++ [r] } := by
  simp only [VoterContainer.AddVote, (addVoteLoop_container_eq_none_iff r v.VoteHistory).2 h]

theorem withVoter_error (db : VoterContainer.VoterList) (f : VoterContainer.CacheFaults)
    (id : Nat) (run : Voter → VoterContainer.VoterList × Nat) (err : String)
    (h : VoterContainer.GetVoter f db id = .error err) :
    VoterContainerApi.withVoter db f (some id) run = (db, 404) := by
  simp only [VoterContainerApi.withVoter, h]

theorem withVoter_absent (db : VoterContainer.VoterList) (f : VoterContainer.CacheFaults)
    (id : Nat) (run : Voter → VoterContainer.VoterList × Nat)
    (h : db.docs.lookup (VoterContainer.redisKeyFromId id) = none) :
    VoterContainerApi.withVoter db f (some id) run = (db, 404) := by
  obtain ⟨err, hg⟩ := GetVoter_container_absent f db id h
  exact withVoter_error db f id run err hg

theorem withVoter_present (db : VoterContainer.VoterList) (f : VoterContainer.CacheFaults)
    (id : Nat) (voter : Voter) (run : Voter → VoterContainer.VoterList × Nat)
    (h : VoterContainer.GetVoter f db id = .ok voter) :
    VoterContainerApi.withVoter db f (some id) run = run voter := by
  simp only [VoterContainerApi.withVoter, h]

/-- The `AddVote` handler once the voter is fetched: the status and the store,
case by case. -/
theorem AddVote_handler_fetched (db : VoterContainer.VoterList)
    (f : VoterContainer.CacheFaults) (id : Nat) (vote : VoterHistory) (voter : Voter)
    (hg : VoterContainer.GetVoter f db id = .ok voter) :
    (voter.VoterId ≠ vote.VoterId →
      VoterContainerApi.AddVote db f (some id) (some vote) = (db, 400)) ∧
    (voter.VoterId = vote.VoterId →
      (∃ x ∈ voter.VoteHistory, x.PollId = vote.PollId) →
      VoterContainerApi.AddVote db f (some id) (some vote) = (db, 500)) ∧
    (voter.VoterId = vote.VoterId →
      (∀ x ∈ voter.VoteHistory, x.PollId ≠ vote.PollId) →
      VoterContainerApi.AddVote db f (some id) (some vote) =
        match VoterContainer.UpdateVoter f db
            { voter with VoteHistory := voter.VoteHistory ++ [vote] } with
        | (db', some _) => (db', 500)
        | (db', none) => (db', 200)) := by
  refine ⟨?_, ?_, ?_⟩
  · intro hid
    rw [VoterContainerApi.AddVote, withVoter_present db f id voter _ hg]
    simp only []
    rw [if_pos hid]
  · intro hid hex
    rw [VoterContainerApi.AddVote, withVoter_present db f id voter _ hg]
    simp only []
    rw [if_neg (not_not.2 hid)]
    simp only [AddVote_container_of_present voter vote hex]
  · intro hid hall
    rw [VoterContainerApi.AddVote, withVoter_present db f id voter _ hg]
    simp only []
    rw [if_neg (not_not.2 hid)]
    simp only [AddVote_container_of_absent voter vote hall]

/-- C15, as the code has it: the `AddVote` handler, on a store that keeps every
voter under the key of its id (as every store served from the empty one does).
It answers 404 when the voter cannot be fetched, in particular when no voter
is stored for the path id; else 400 when the vote names another voter; else
500 when the voter's history already holds the poll; else 500 when writing the
voter back fails (the `Exists` or the `JSONSet` command comes back with an
error); else 200, and then the stored voter is the old one with the vote
appended to its history. Whenever the answer is not 200 the store is
unchanged. -/
theorem AddVote_handler_status (db : VoterContainer.VoterList)
    (f : VoterContainer.CacheFaults) (id : Nat) (vote : VoterHistory)
    (hkeyed : ∀ key v, db.docs.lookup key = some v →
      key = VoterContainer.redisKeyFromId v.VoterId) :
    (db.docs.lookup (VoterContainer.redisKeyFromId id) = none →
      VoterContainerApi.AddVote db f (some id) (some vote) = (db, 404)) ∧
    (∀ err, VoterContainer.GetVoter f db id = .error err →
      VoterContainerApi.AddVote db f (some id) (some vote) = (db, 404)) ∧
    (∀ voter, VoterContainer.GetVoter f db id = .ok voter →
      (voter.VoterId ≠ vote.VoterId →
        VoterContainerApi.AddVote db f (some id) (some vote) = (db, 400)) ∧
      (voter.VoterId = vote.VoterId →
        (∃ x ∈ voter.VoteHistory, x.PollId = vote.PollId) →
        VoterContainerApi.AddVote db f (some id) (some vote) = (db, 500)) ∧
      (voter.VoterId = vote.VoterId →
        (∀ x ∈ voter.VoteHistory, x.PollId ≠ vote.PollId) →
        (f.existsErr ≠ none ∨ f.jsonSetErr ≠ none →
          VoterContainerApi.AddVote db f (some id) (some vote) = (db, 500)) ∧
        (f.existsErr = none → f.jsonSetErr = none →
          (VoterContainerApi.AddVote db f (some id) (some vote)).2 = 200 ∧
          (VoterContainerApi.AddVote db f (some id) (some vote)).1.docs.lookup
              (VoterContainer.redisKeyFromId id)
            = some { voter with VoteHistory := voter.VoteHistory ++ [vote] } ∧
          VoterContainer.GetVoter VoterContainer.noFaults
              (VoterContainerApi.AddVote db f (some id) (some vote)).1 id
            = .ok { voter with VoteHistory := voter.VoteHistory ++ [vote] }))) ∧
    ((VoterContainerApi.AddVote db f (some id) (some vote)).2 ≠ 200 →
      (VoterContainerApi.AddVote db f (some id) (some vote)).1 = db) := by
  have hfault : ∀ voter, VoterContainer.GetVoter f db id = .ok voter →
      voter.VoterId = vote.VoterId → (∀ x ∈ voter.VoteHistory, x.PollId ≠ vote.PollId) →
      (f.existsErr ≠ none ∨ f.jsonSetErr ≠ none) →
      VoterContainerApi.AddVote db f (some id) (some vote) = (db, 500) := by
    intro voter hg hid hall hf
    obtain ⟨err, hupd⟩ := UpdateVoter_container_fault f db
      { voter with VoteHistory := voter.VoteHistory ++ [vote] } hf
    rw [(AddVote_handler_fetched db f id vote voter hg).2.2 hid hall, hupd]
  have hgood : ∀ voter, VoterContainer.GetVoter f db id = .ok voter →
      voter.VoterId = vote.VoterId → (∀ x ∈ voter.VoteHistory, x.PollId ≠ vote.PollId) →
      f.existsErr = none → f.jsonSetErr = none →
      VoterContainerApi.AddVote db f (some id) (some vote) =
        (⟨db.docs.insert (VoterContainer.redisKeyFromId id)
          { voter with VoteHistory := voter.VoteHistory ++ [vote] }⟩, 200) := by
    intro voter hg hid hall hex hset
    have hl := (GetVoter_container_ok f db id voter hg).2
    have hkey : VoterContainer.redisKeyFromId id
        = VoterContainer.redisKeyFromId voter.VoterId := hkeyed _ voter hl
    have hupd := UpdateVoter_container_present f db
      { voter with VoteHistory := voter.VoteHistory ++ [vote] } voter
      (by rw [← hkey]; exact hl) hex hset
    rw [(AddVote_handler_fetched db f id vote voter hg).2.2 hid hall, hupd, ← hkey]
  refine ⟨?_, ?_, ?_, ?_⟩
  · intro habs
    rw [VoterContainerApi.AddVote, withVoter_absent db f id _ habs]
  · intro err hg
    rw [VoterContainerApi.AddVote, withVoter_error db f id _ err hg]
  · intro voter hg
    refine ⟨(AddVote_handler_fetched db f id vote voter hg).1,
      (AddVote_handler_fetched db f id vote voter hg).2.1, ?_⟩
    intro hid hall
    refine ⟨hfault voter hg hid hall, ?_⟩
    intro hex hset
    rw [hgood voter hg hid hall hex hset]
    refine ⟨rfl, ?_, ?_⟩
    · simp only [AList.lookup_insert]
    · rw [GetVoter_container_of_lookup]
      simp only [VoterContainer.noFaults, AList.lookup_insert]
  · intro hne
    cases hg : VoterContainer.GetVoter f db id with
    | error err => rw [VoterContainerApi.AddVote, withVoter_error db f id _ err hg]
    | ok voter =>
      by_cases hid : voter.VoterId = vote.VoterId
      · by_cases hex : ∃ x ∈ voter.VoteHistory, x.PollId = vote.PollId
        · rw [(AddVote_handler_fetched db f id vote voter hg).2.1 hid hex]
        · have hall : ∀ x ∈ voter.VoteHistory, x.PollId ≠ vote.PollId :=
            fun x hx hxe => hex ⟨x, hx, hxe⟩
          by_cases hf : f.existsErr ≠ none ∨ f.jsonSetErr ≠ none
          · rw [hfault voter hg hid hall hf]
          · have hex2 : f.existsErr = none := by
              by_contra hcon
              exact hf (Or.inl hcon)
            have hset2 : f.jsonSetErr = none := by
              by_contra hcon
              exact hf (Or.inr hcon)
            rw [hgood voter hg hid hall hex2 hset2] at hne
            exact absurd rfl hne
      · rw [(AddVote_handler_fetched db f id vote voter hg).1 hid]

/-- C15, witness: on the store left by `sampleRequests`, with every command of
the cache going through, a vote of voter 1 for poll 3 is answered 200 and is
then the last record of voter 1. -/
theorem AddVote_handler_status_witness :
    VoterContainer.GetVoter VoterContainer.noFaults sampleStore 1
      = .ok ⟨1, "name2", "name2@place.com", [⟨0, 1, 5⟩, ⟨1, 1, 9⟩]⟩ ∧
    (VoterContainerApi.AddVote sampleStore VoterContainer.noFaults (some 1)
        (some ⟨3, 1, 10⟩)).2 = 200 ∧
    (VoterContainerApi.AddVote sampleStore VoterContainer.noFaults (some 1)
        (some ⟨3, 1, 10⟩)).1.docs.lookup (VoterContainer.redisKeyFromId 1)
      = some ⟨1, "name2", "name2@place.com", [⟨0, 1, 5⟩, ⟨1, 1, 9⟩, ⟨3, 1, 10⟩]⟩ ∧
    VoterContainer.GetVoter VoterContainer.noFaults
        (VoterContainerApi.AddVote sampleStore VoterContainer.noFaults (some 1)
          (some ⟨3, 1, 10⟩)).1 1
      = .ok ⟨1, "name2", "name2@place.com", [⟨0, 1, 5⟩, ⟨1, 1, 9⟩, ⟨3, 1, 10⟩]⟩ :=
  ⟨by decide,
    (((AddVote_handler_status sampleStore VoterContainer.noFaults 1 ⟨3, 1, 10⟩
        (serve_keyed sampleRequests VoterContainer.NewVoterList
          (fun key v h => by simp [VoterContainer.NewVoterList] at h))).2.2.1
      ⟨1, "name2", "name2@place.com", [⟨0, 1, 5⟩, ⟨1, 1, 9⟩]⟩ (by decide)).2.2
      rfl (by decide)).2 rfl rfl⟩

/-- C15, counterexample: the store left by `sampleRequests` holds voter 1 with
votes for polls 0 and 1; a vote of voter 1 for poll 3 arrives while the cache
refuses the write. The voter is stored, the vote names it and the poll is new,
yet the handler answers 500, not 200, and the vote is not stored. -/
theorem AddVote_handler_counterexample :
    VoterContainer.GetVoter writeFails sampleStore 1
      = .ok ⟨1, "name2", "name2@place.com", [⟨0, 1, 5⟩, ⟨1, 1, 9⟩]⟩ ∧
    (Voter.mk 1 "name2" "name2@place.com" [⟨0, 1, 5⟩, ⟨1, 1, 9⟩]).VoterId
      = (VoterHistory.mk 3 1 10).VoterId ∧
    (∀ x ∈ (Voter.mk 1 "name2" "name2@place.com" [⟨0, 1, 5⟩, ⟨1, 1, 9⟩]).VoteHistory,
      x.PollId ≠ (VoterHistory.mk 3 1 10).PollId) ∧
    (VoterContainer.UpdateVoter writeFails sampleStore
        ⟨1, "name2", "name2@place.com", [⟨0, 1, 5⟩, ⟨1, 1, 9⟩, ⟨3, 1, 10⟩]⟩).2
      = some "dial tcp 0.0.0.0:6379: connect: connection refused" ∧
    (VoterContainerApi.AddVote sampleStore writeFails (some 1) (some ⟨3, 1, 10⟩)).2 = 500 ∧
    (VoterContainerApi.AddVote sampleStore writeFails (some 1) (some ⟨3, 1, 10⟩)).2 ≠ 200 ∧
    VoterContainer.GetVoter VoterContainer.noFaults
        (VoterContainerApi.AddVote sampleStore writeFails (some 1) (some ⟨3, 1, 10⟩)).1 1
      = .ok ⟨1, "name2", "name2@place.com", [⟨0, 1, 5⟩, ⟨1, 1, 9⟩]⟩ := by
  decide

/-- C16, as the code has it, whatever commands of the cache fail. When no voter
is stored for the id, the handlers that start by fetching the voter
(`GetVoter`, `GetAllVotes`, `AddVote`, `GetVote`, `UpdateVote`, `DeleteVote`)
answer 404, while `DeleteVoter` and `UpdateVoter` (with a valid body for that
id) answer 500. When the voter is fetched and has no vote for the poll,
`GetVote` answers 404, while `DeleteVote` and `UpdateVote` (with a body for that
poll and voter) answer 500. -/
theorem not_found_status (db : VoterContainer.VoterList) (f : VoterContainer.CacheFaults)
    (id pollid : Nat) :
    (db.docs.lookup (VoterContainer.redisKeyFromId id) = none →
      (VoterContainerApi.GetVoter db f (some id)).2 = 404 ∧
      (VoterContainerApi.GetAllVotes db f (some id)).2 = 404 ∧
      (∀ body, (VoterContainerApi.AddVote db f (some id) body).2 = 404) ∧
      (∀ p, (VoterContainerApi.GetVote db f (some id) p).2 = 404) ∧
      (∀ p body, (VoterContainerApi.UpdateVote db f (some id) p body).2 = 404) ∧
      (∀ p, (VoterContainerApi.DeleteVote db f (some id) p).2 = 404) ∧
      (VoterContainer.DeleteVoter f db id).2 = some "no voter for id" ∧
      (VoterContainerApi.DeleteVoter db f (some id)).2 = 500 ∧
      (∀ voter, voter.VoterId = id → VoterContainer.ValidateVotes voter = none →
        (VoterContainer.UpdateVoter f db voter).2 = some "Voter does not exist" ∧
        (VoterContainerApi.UpdateVoter db f (some id) (some voter)).2 = 500)) ∧
    (∀ voter, VoterContainer.GetVoter f db id = .ok voter →
      (∀ x ∈ voter.VoteHistory, x.PollId ≠ pollid) →
      (VoterContainer.GetVote voter pollid = .error "vote does not exist" ∧
        (VoterContainerApi.GetVote db f (some id) (some pollid)).2 = 404) ∧
      (VoterContainer.DeleteVote voter pollid = .error "vote does not exist" ∧
        (VoterContainerApi.DeleteVote db f (some id) (some pollid)).2 = 500) ∧
      (∀ vote, vote.PollId = pollid → vote.VoterId = voter.VoterId →
        VoterContainer.UpdateVote voter vote = .error "vote does not exist" ∧
        (VoterContainerApi.UpdateVote db f (some id) (some pollid) (some vote)).2 = 500)) := by
  constructor
  · intro habs
    refine ⟨?_, ?_, ?_, ?_, ?_, ?_, ?_, ?_, ?_⟩
    · rw [VoterContainerApi.GetVoter, withVoter_absent db f id _ habs]
    · rw [VoterContainerApi.GetAllVotes, withVoter_absent db f id _ habs]
    · intro body
      rw [VoterContainerApi.AddVote, withVoter_absent db f id _ habs]
    · intro p
      rw [VoterContainerApi.GetVote, withVoter_absent db f id _ habs]
    · intro p body
      rw [VoterContainerApi.UpdateVote, withVoter_absent db f id _ habs]
    · intro p
      rw [VoterContainerApi.DeleteVote, withVoter_absent db f id _ habs]
    · rw [DeleteVoter_container_absent f db id habs]
    · simp only [VoterContainerApi.DeleteVoter, DeleteVoter_container_absent f db id habs]
    · intro voter hid hval
      subst hid
      have hupd := UpdateVoter_container_absent f db voter habs
      refine ⟨by rw [hupd], ?_⟩
      simp only [VoterContainerApi.UpdateVoter, ne_eq, not_true_eq_false, if_false, hval, hupd]
  · intro voter hg hall
    have hget := getVoteLoop_container_not_found pollid voter.VoteHistory hall
    have hdel := DeleteVote_container_of_absent voter pollid hall
    refine ⟨⟨hget, ?_⟩, ⟨hdel, ?_⟩, ?_⟩
    · rw [VoterContainerApi.GetVote, withVoter_present db f id voter _ hg]
      have hget2 : VoterContainer.GetVote voter pollid = .error "vote does not exist" := hget
      simp only [hget2]
    · rw [VoterContainerApi.DeleteVote, withVoter_present db f id voter _ hg]
      simp only [hdel]
    · intro vote hp hv
      subst hp
      have hupd := UpdateVote_container_of_absent voter vote hall
      refine ⟨hupd, ?_⟩
      rw [VoterContainerApi.UpdateVote, withVoter_present db f id voter _ hg]
      simp only [ne_eq, not_true_eq_false, if_false, hv, hupd]

/-- C16, witness: on the store left by `sampleRequests`, which holds voters 0
and 1, requests for voter 4 and for poll 4 of voter 1, with every command of
the cache going through. -/
theorem not_found_status_witness :
    ((VoterContainerApi.GetVoter sampleStore VoterContainer.noFaults (some 4)).2 = 404 ∧
      (VoterContainerApi.DeleteVoter sampleStore VoterContainer.noFaults (some 4)).2 = 500) ∧
    ((VoterContainerApi.GetVote sampleStore VoterContainer.noFaults (some 1) (some 4)).2 = 404 ∧
      (VoterContainerApi.DeleteVote sampleStore VoterContainer.noFaults (some 1) (some 4)).2
        = 500) :=
  ⟨⟨((not_found_status sampleStore VoterContainer.noFaults 4 4).1 (by decide)).1,
      ((not_found_status sampleStore VoterContainer.noFaults 4 4).1
        (by decide)).2.2.2.2.2.2.2.1⟩,
    ⟨(((not_found_status sampleStore VoterContainer.noFaults 1 4).2
        ⟨1, "name2", "name2@place.com", [⟨0, 1, 5⟩, ⟨1, 1, 9⟩]⟩ (by decide) (by decide)).1).2,
      (((not_found_status sampleStore VoterContainer.noFaults 1 4).2
        ⟨1, "name2", "name2@place.com", [⟨0, 1, 5⟩, ⟨1, 1, 9⟩]⟩ (by decide)
          (by decide)).2.1).2⟩⟩

/-- C16, counterexample: voter 4 is not in the store left by `sampleRequests`;
with every command of the cache going through, `DeleteVoter` of the store
reports that no voter has the id, and the `DeleteVoter` handler answers 500,
not 404 (as `Test_DeleteNonExistentVoter` expects). -/
theorem DeleteVoter_handler_counterexample :
    (VoterContainer.DeleteVoter VoterContainer.noFaults sampleStore 4).2
      = some "no voter for id" ∧
    (VoterContainerApi.DeleteVoter sampleStore VoterContainer.noFaults (some 4)).2 = 500 ∧
    (VoterContainerApi.DeleteVoter sampleStore VoterContainer.noFaults (some 4)).2 ≠ 404 := by
  decide

/-! ## Vote operations on a voter fetched from the in-memory store -/

/-- C17, at the failing input: voter 1 is stored with votes for polls 0, 1 and
2 and is fetched with `GetVoter`. `UpdateVote` and `DeleteVote` on the fetched
value write into the backing array it shares with the stored record, so the
history read by a later `GetVoter` differs although `UpdateVoter` was never
called (the map itself is untouched). `AddVote` leaves that history as it was. -/
theorem vote_methods_share_stored_array :
    VoterApiHeap.GetVoter storeOfVoterOne 1 = .ok voterOneInMemory ∧
    VoterApiHeap.readHistory heapOfVoterOne storeOfVoterOne 1
      = .ok [⟨0, 1, 5⟩, ⟨1, 1, 6⟩, ⟨2, 1, 7⟩] ∧
    ((VoterApiHeap.UpdateVote heapOfVoterOne voterOneInMemory ⟨1, 1, 9⟩).2
        = .ok voterOneInMemory ∧
      VoterApiHeap.readHistory
          (VoterApiHeap.UpdateVote heapOfVoterOne voterOneInMemory ⟨1, 1, 9⟩).1
          storeOfVoterOne 1
        = .ok [⟨0, 1, 5⟩, ⟨1, 1, 9⟩, ⟨2, 1, 7⟩]) ∧
    (∀ growCap : Nat → Nat → Nat,
      (VoterApiHeap.DeleteVote growCap heapOfVoterOne voterOneInMemory 0).2
        = .ok ⟨1, "name2", "name2@place.com", ⟨0, 0, 2, 4⟩⟩ ∧
      VoterApiHeap.readHistory
          (VoterApiHeap.DeleteVote growCap heapOfVoterOne voterOneInMemory 0).1
          storeOfVoterOne 1
        = .ok [⟨1, 1, 6⟩, ⟨2, 1, 7⟩, ⟨2, 1, 7⟩]) ∧
    (∀ growCap : Nat → Nat → Nat,
      (VoterApiHeap.AddVote growCap heapOfVoterOne voterOneInMemory ⟨3, 1, 8⟩).2
        = .ok ⟨1, "name2", "name2@place.com", ⟨0, 0, 4, 4⟩⟩ ∧
      VoterApiHeap.readHistory
          (VoterApiHeap.AddVote growCap heapOfVoterOne voterOneInMemory ⟨3, 1, 8⟩).1
          storeOfVoterOne 1
        = .ok [⟨0, 1, 5⟩, ⟨1, 1, 6⟩, ⟨2, 1, 7⟩]) :=
  ⟨by decide, by decide, ⟨by decide, by decide⟩,
    fun _ => ⟨rfl, rfl⟩, fun _ => ⟨rfl, rfl⟩⟩

/-! ## The slice-level methods and the value-level ones

On a slice that lies within its backing array, each vote method on slices
returns, read through the heap it leaves, what the value-level method of
`VoterApi` returns on the elements. -/

theorem getD_set_self_heap (h : VoterApiHeap.Heap) (a : Nat) (arr : List VoterHistory)
    (ha : a < h.length) : (h.set a arr).getD a [] = arr := by
  simp [ha]

theorem array_valid_of_pos (h : VoterApiHeap.Heap) (a : Nat)
    (hpos : 0 < (h.getD a []).length) : a < h.length := by
  by_contra hcon
  have : h.getD a [] = [] := by
    simp [List.getElem?_eq_none (Nat.le_of_not_lt hcon)]
  rw [this] at hpos
  simp at hpos

theorem elems_length (h : VoterApiHeap.Heap) (s : VoterApiHeap.Slice)
    (hwf : VoterApiHeap.inBounds h s) : (VoterApiHeap.elems h s).length = s.len := by
  obtain ⟨h1, h2⟩ := hwf
  simp only [VoterApiHeap.elems, List.length_take, List.length_drop]
  omega

theorem elems_assign (h : VoterApiHeap.Heap) (s : VoterApiHeap.Slice) (i : Nat)
    (x : VoterHistory) (hwf : VoterApiHeap.inBounds h s) (hi : i < s.len) :
    VoterApiHeap.elems (VoterApiHeap.assign h s i x) s = (VoterApiHeap.elems h s).set i x := by
  obtain ⟨h1, h2⟩ := hwf
  have hvalid : s.array < h.length := array_valid_of_pos h s.array (by omega)
  simp only [VoterApiHeap.elems, VoterApiHeap.assign]
  rw [getD_set_self_heap h s.array _ hvalid]
  generalize h.getD s.array [] = arr at h2
  apply List.ext_getElem?
  intro n
  simp only [List.getElem?_take, List.getElem?_drop, List.getElem?_set, List.length_take,
    List.length_drop]
  by_cases hn : n < s.len
  · simp only [hn, if_true]
    by_cases hin : i = n
    · subst hin
      have e1 : s.offset + i < arr.length := by omega
      have e2 : i < min s.len (arr.length - s.offset) := by omega
      simp [e1, e2]
    · have e3 : s.offset + i ≠ s.offset + n := by omega
      simp [hin, e3]
  · simp only [hn, if_false]
    by_cases hin : i = n
    · omega
    · simp [hin]

/-- The voter returned by `UpdateVote` on slices is, read through the heap it
leaves, the voter the value-level `UpdateVote` returns. -/
theorem UpdateVote_heap_refines (h : VoterApiHeap.Heap) (v : VoterApiHeap.Voter)
    (r : VoterHistory) (hwf : VoterApiHeap.inBounds h v.VoteHistory) :
    Except.map (viewVoter (VoterApiHeap.UpdateVote h v r).1) (VoterApiHeap.UpdateVote h v r).2
      = VoterApi.UpdateVote (viewVoter h v) r := by
  by_cases hex : ∃ x ∈ VoterApiHeap.elems h v.VoteHistory, x.PollId = r.PollId
  · obtain ⟨pre, old, post, hsplit, hpre, hold⟩ :=
      exists_first_poll r.PollId (VoterApiHeap.elems h v.VoteHistory) hex
    have hfind : findVoteIndex r.PollId (VoterApiHeap.elems h v.VoteHistory) 0
        = (true, pre.length) := by
      rw [hsplit, findVoteIndex_found r.PollId pre post old 0 hpre hold, Nat.zero_add]
    have hlen := elems_length h v.VoteHistory hwf
    have hi : pre.length < v.VoteHistory.len := by
      rw [← hlen, hsplit]; simp
    simp only [VoterApiHeap.UpdateVote, VoterApi.UpdateVote, viewVoter, hfind, Except.map,
      elems_assign h v.VoteHistory pre.length r hwf hi]
  · have hall : ∀ x ∈ VoterApiHeap.elems h v.VoteHistory, x.PollId ≠ r.PollId :=
      fun x hx hxe => hex ⟨x, hx, hxe⟩
    have hfind := findVoteIndex_not_found r.PollId (VoterApiHeap.elems h v.VoteHistory) 0 hall
    simp only [VoterApiHeap.UpdateVote, VoterApi.UpdateVote, viewVoter, hfind, Except.map]

theorem take_succ_set (arr : List VoterHistory) (pos : Nat) (x : VoterHistory)
    (hpos : pos < arr.length) : (arr.set pos x).take (pos + 1) = arr.take pos ++ [x] := by
  apply List.ext_getElem?
  intro n
  by_cases hn : n < pos
  · rw [List.getElem?_take_of_lt (by omega), List.getElem?_set_ne (by omega),
      List.getElem?_append_left (by simp; omega), List.getElem?_take_of_lt hn]
  · by_cases hn2 : n = pos
    · subst hn2
      rw [List.getElem?_take_of_lt (by omega), List.getElem?_set_self hpos,
        List.getElem?_append_right (by simp)]
      simp [Nat.min_eq_left (Nat.le_of_lt hpos)]
    · rw [List.getElem?_eq_none (by simp; omega), List.getElem?_eq_none (by simp; omega)]

theorem copyInto_array (xs : List VoterHistory) (h : VoterApiHeap.Heap) (a pos : Nat)
    (ha : a < h.length) (hfit : pos + xs.length ≤ (h.getD a []).length) :
    (VoterApiHeap.copyInto h a pos xs).getD a []
      = (h.getD a []).take pos ++ xs ++ (h.getD a []).drop (pos + xs.length) := by
  induction xs generalizing h pos with
  | nil => simp [VoterApiHeap.copyInto]
  | cons x xs ih =>
    have hpos : pos < (h.getD a []).length := by
      simp only [List.length_cons] at hfit
      omega
    have hset : (h.set a ((h.getD a []).set pos x)).getD a [] = (h.getD a []).set pos x :=
      getD_set_self_heap h a _ ha
    have hfit2 : pos + 1 + xs.length ≤
        ((h.set a ((h.getD a []).set pos x)).getD a []).length := by
      rw [hset, List.length_set]
      simp only [List.length_cons] at hfit
      omega
    have hstep := ih (h.set a ((h.getD a []).set pos x)) (pos + 1)
      (by rw [List.length_set]; exact ha) hfit2
    rw [hset] at hstep
    simp only [VoterApiHeap.copyInto]
    rw [hstep, take_succ_set _ pos x hpos, List.drop_set_of_lt x _ (by omega)]
    simp only [List.length_cons, List.append_assoc, List.singleton_append]
    congr 3
    omega

/-- The slice `append` returns holds the old elements followed by the new
ones. -/
theorem append_elems (growCap : Nat → Nat → Nat) (h : VoterApiHeap.Heap)
    (s : VoterApiHeap.Slice) (xs : List VoterHistory) (hwf : VoterApiHeap.inBounds h s) :
    VoterApiHeap.elems (VoterApiHeap.append growCap h s xs).1
        (VoterApiHeap.append growCap h s xs).2
      = VoterApiHeap.elems h s ++ xs := by
  have hlen := elems_length h s hwf
  obtain ⟨h1, h2⟩ := hwf
  unfold VoterApiHeap.append
  by_cases hfit : s.len + xs.length ≤ s.cap
  · rw [if_pos hfit]
    cases xs with
    | nil => simp [VoterApiHeap.copyInto, VoterApiHeap.elems]
    | cons x xs =>
      have hvalid : s.array < h.length :=
        array_valid_of_pos h s.array (by simp only [List.length_cons] at hfit; omega)
      have harr := copyInto_array (x :: xs) h s.array (s.offset + s.len) hvalid (by omega)
      have hE : VoterApiHeap.elems h s
          = ((h.getD s.array []).take (s.offset + s.len)).drop s.offset := by
        rw [VoterApiHeap.elems, List.take_drop]
      show (((VoterApiHeap.copyInto h s.array (s.offset + s.len) (x :: xs)).getD s.array
        []).drop s.offset).take (s.len + (x :: xs).length) = _
      rw [harr, hE]
      generalize h.getD s.array [] = arr at h2
      have hA : (arr.take (s.offset + s.len)).length = s.offset + s.len := by
        rw [List.length_take]; omega
      have hB : ((arr.take (s.offset + s.len)).drop s.offset ++ x :: xs).length
          = s.len + (x :: xs).length := by
        rw [List.length_append, List.length_drop, hA]; omega
      rw [List.append_assoc, List.drop_append_of_le_length (by omega), ← List.append_assoc,
        List.take_append_of_le_length (by omega)]
      exact List.take_of_length_le (by omega)
  · rw [if_neg hfit]
    show ((((h ++ [VoterApiHeap.elems h s ++ xs ++ List.replicate _ VoterApiHeap.zeroVote]).getD
      h.length []).drop 0).take (s.len + xs.length)) = _
    have hget : ∀ new : List VoterHistory, (h ++ [new]).getD h.length [] = new := by
      intro new
      simp
    have hB : (VoterApiHeap.elems h s ++ xs).length = s.len + xs.length := by
      rw [List.length_append, hlen]
    rw [hget, List.drop_zero, List.take_append_of_le_length (by omega)]
    exact List.take_of_length_le (by omega)

theorem elems_sliceTo (h : VoterApiHeap.Heap) (s : VoterApiHeap.Slice) (i : Nat)
    (hi : i ≤ s.len) :
    VoterApiHeap.elems h (VoterApiHeap.sliceTo s i) = (VoterApiHeap.elems h s).take i := by
  simp only [VoterApiHeap.elems, VoterApiHeap.sliceTo, List.take_take, Nat.min_eq_left hi]

theorem elems_sliceFrom (h : VoterApiHeap.Heap) (s : VoterApiHeap.Slice) (i : Nat) :
    VoterApiHeap.elems h (VoterApiHeap.sliceFrom s i) = (VoterApiHeap.elems h s).drop i := by
  simp only [VoterApiHeap.elems, VoterApiHeap.sliceFrom, List.drop_take, List.drop_drop]

/-- The voter returned by `AddVote` on slices is, read through the heap it
leaves, the voter the value-level `AddVote` returns. -/
theorem AddVote_heap_refines (growCap : Nat → Nat → Nat) (h : VoterApiHeap.Heap)
    (v : VoterApiHeap.Voter) (r : VoterHistory)
    (hwf : VoterApiHeap.inBounds h v.VoteHistory) :
    Except.map (viewVoter (VoterApiHeap.AddVote growCap h v r).1)
        (VoterApiHeap.AddVote growCap h v r).2
      = VoterApi.AddVote (viewVoter h v) r := by
  cases hl : VoterApi.addVoteLoop r (VoterApiHeap.elems h v.VoteHistory) with
  | some err =>
    simp only [VoterApiHeap.AddVote, VoterApi.AddVote, viewVoter, hl, Except.map]
  | none =>
    simp only [VoterApiHeap.AddVote, VoterApi.AddVote, viewVoter, hl, Except.map,
      append_elems growCap h v.VoteHistory [r] hwf]

/-- The voter returned by `DeleteVote` on slices is, read through the heap it
leaves, the voter the value-level `DeleteVote` returns. -/
theorem DeleteVote_heap_refines (growCap : Nat → Nat → Nat) (h : VoterApiHeap.Heap)
    (v : VoterApiHeap.Voter) (pollId : Nat)
    (hwf : VoterApiHeap.inBounds h v.VoteHistory) :
    Except.map (viewVoter (VoterApiHeap.DeleteVote growCap h v pollId).1)
        (VoterApiHeap.DeleteVote growCap h v pollId).2
      = VoterApi.DeleteVote (viewVoter h v) pollId := by
  by_cases hex : ∃ x ∈ VoterApiHeap.elems h v.VoteHistory, x.PollId = pollId
  · obtain ⟨pre, old, post, hsplit, hpre, hold⟩ :=
      exists_first_poll pollId (VoterApiHeap.elems h v.VoteHistory) hex
    have hfind : findVoteIndex pollId (VoterApiHeap.elems h v.VoteHistory) 0
        = (true, pre.length) := by
      rw [hsplit, findVoteIndex_found pollId pre post old 0 hpre hold, Nat.zero_add]
    have hlen := elems_length h v.VoteHistory hwf
    have hi : pre.length < v.VoteHistory.len := by
      rw [← hlen, hsplit]; simp
    have hwf2 : VoterApiHeap.inBounds h (VoterApiHeap.sliceTo v.VoteHistory pre.length) := by
      obtain ⟨h1, h2⟩ := hwf
      exact ⟨by simp only [VoterApiHeap.sliceTo]; omega, h2⟩
    simp only [VoterApiHeap.DeleteVote, VoterApi.DeleteVote, viewVoter, hfind, Except.map,
      append_elems growCap h _ _ hwf2, elems_sliceTo h v.VoteHistory pre.length (Nat.le_of_lt hi),
      elems_sliceFrom, removeAt]
  · have hall : ∀ x ∈ VoterApiHeap.elems h v.VoteHistory, x.PollId ≠ pollId :=
      fun x hx hxe => hex ⟨x, hx, hxe⟩
    have hfind := findVoteIndex_not_found pollId (VoterApiHeap.elems h v.VoteHistory) 0 hall
    simp only [VoterApiHeap.DeleteVote, VoterApi.DeleteVote, viewVoter, hfind, Except.map]

/-- A slice reads the same elements after `append` to it as before: `append`
writes past its length or into a fresh array. -/
theorem append_keeps_elems (growCap : Nat → Nat → Nat) (h : VoterApiHeap.Heap)
    (s : VoterApiHeap.Slice) (xs : List VoterHistory) (hwf : VoterApiHeap.inBounds h s) :
    VoterApiHeap.elems (VoterApiHeap.append growCap h s xs).1 s = VoterApiHeap.elems h s := by
  obtain ⟨h1, h2⟩ := hwf
  unfold VoterApiHeap.append
  by_cases hfit : s.len + xs.length ≤ s.cap
  · rw [if_pos hfit]
    cases xs with
    | nil => simp [VoterApiHeap.copyInto]
    | cons x xs =>
      have hvalid : s.array < h.length :=
        array_valid_of_pos h s.array (by simp only [List.length_cons] at hfit; omega)
      have harr := copyInto_array (x :: xs) h s.array (s.offset + s.len) hvalid (by omega)
      have hE : VoterApiHeap.elems h s
          = ((h.getD s.array []).take (s.offset + s.len)).drop s.offset := by
        rw [VoterApiHeap.elems, List.take_drop]
      show (((VoterApiHeap.copyInto h s.array (s.offset + s.len) (x :: xs)).getD s.array
        []).drop s.offset).take s.len = _
      rw [harr, hE]
      generalize h.getD s.array [] = arr at h2
      have hA : (arr.take (s.offset + s.len)).length = s.offset + s.len := by
        rw [List.length_take]; omega
      have hB : ((arr.take (s.offset + s.len)).drop s.offset).length = s.len := by
        rw [List.length_drop, hA]; omega
      rw [List.append_assoc, List.drop_append_of_le_length (by omega),
        List.take_append_of_le_length (by omega)]
      exact List.take_of_length_le (by omega)
  · rw [if_neg hfit]
    show (((h ++ [VoterApiHeap.elems h s ++ xs ++ List.replicate _ VoterApiHeap.zeroVote]).getD
      s.array []).drop s.offset).take s.len = _
    by_cases hvalid : s.array < h.length
    · have hget : ∀ new : List VoterHistory,
          (h ++ [new]).getD s.array [] = h.getD s.array [] := by
        intro new
        simp [List.getElem?_append_left hvalid]
      rw [hget, VoterApiHeap.elems]
    · have hnil : h.getD s.array [] = [] := by
        simp [List.getElem?_eq_none (Nat.le_of_not_lt hvalid)]
      rw [hnil] at h2
      have hzero : s.len = 0 := by
        simp only [List.length_nil] at h2
        omega
      simp [VoterApiHeap.elems, hzero]

/-- `AddVote` on a voter fetched from the store leaves the history read
through the fetched (and stored) slice header as it was. -/
theorem AddVote_heap_keeps_history (growCap : Nat → Nat → Nat) (h : VoterApiHeap.Heap)
    (v : VoterApiHeap.Voter) (r : VoterHistory)
    (hwf : VoterApiHeap.inBounds h v.VoteHistory) :
    VoterApiHeap.elems (VoterApiHeap.AddVote growCap h v r).1 v.VoteHistory
      = VoterApiHeap.elems h v.VoteHistory := by
  cases hl : VoterApi.addVoteLoop r (VoterApiHeap.elems h v.VoteHistory) with
  | some err => simp only [VoterApiHeap.AddVote, hl]
  | none =>
    simp only [VoterApiHeap.AddVote, hl]
    exact append_keeps_elems growCap h v.VoteHistory [r] hwf
